import Mathlib

/-!
Verification of the external CardDAV reconciliation worker
(`ExternalCardDAVWorker.cpp` / `.hpp`).

The development shallowly embeds the worker: the remote listing is an
association list from etag to href (the entries of the C++ `map<ETAG,string>`),
the local store is a list of `Contact` rows, and the run is an explicit fold
over fetch batches that also records a trace of deletion / save / fetch
events so that temporal properties of the run can be stated.
-/

/-- Opaque info blob stored on a contact row: raw vCard text, originating
href, and an optional photo (mirrors the `json info` object built in
`ingestAddressDataNode`). -/
structure ContactInfo where
  vcf : String
  href : String
  photo : Option String
deriving DecidableEq, Repr

/-- Local contact row. Mirrors the columns of the `Contact` table that the
worker reads and writes (id, accountId, bookId, email, name, info, etag,
hidden, source). The `Contact` class itself is not part of the given
sources; its fields and its constructor defaults (fresh rows start with
`hidden = false`, empty bookId/name/etag) are modelled from the spec's
data-model section. -/
structure Contact where
  id : String
  accountId : String
  bookId : String
  email : String
  name : String
  info : ContactInfo
  etag : String
  hidden : Bool
  source : String
deriving DecidableEq, Repr

/-- Result of parsing one vCard payload. The vCard parser is an external
collaborator; this record exposes exactly the accessors the worker calls:
`incomplete()`, `getUniqueId()`, `getFormattedName()`, `getName()`,
`getEmails()`, `getPhoto()`, and `DAVUtils::isGroupCard`. -/
structure ParsedVCard where
  incomplete : Bool
  uniqueId : String
  formattedName : String
  name : String
  emails : List String
  photo : Option String
  isGroup : Bool
deriving DecidableEq, Repr

/-- One `D:response` node of an addressbook-multiget response: the etag,
href and address-data text extracted by the three XPath queries at the top
of `ingestAddressDataNode`, together with the result of parsing the
address-data text. -/
structure ResponseItem where
  etag : String
  href : String
  vcardString : String
  parsed : ParsedVCard
deriving DecidableEq, Repr

/-- Result record returned by `ExternalCardDAVWorker::run`
(`ExternalCardDAVSyncResult` in the header). -/
structure SyncResult where
  sourceId : String
  sourceName : String
  contactCount : Nat
  success : Bool
  error : String
deriving DecidableEq, Repr

/-- Observable store events of one run: execution of the
`DELETE FROM Contact WHERE bookId = ? AND etag = ?` statement (tagged with
the batch index it ran in, `none` for the final deletion pass), a
`store->save` of a contact row, and one content-fetch (multiget) request
per batch. -/
inductive RunEvent where
  | deleteExec : Option Nat → String → RunEvent
  | saveExec : Nat → String → RunEvent
  | fetchExec : Nat → List String → RunEvent
deriving DecidableEq, Repr

/-- Mutable state of `runForAddressBook` while looping over batches: the
contact table, the remaining `deleted` vector, and the trace of store
events so far. -/
structure BatchSt where
  contacts : List Contact
  deletedList : List String
  events : List RunEvent
deriving DecidableEq, Repr

/-- URL normalization at the top of `performXMLRequest`:
`_url.find("http") != 0 ? "https://" + _url : _url`. -/
def requestUrl (u : String) : String :=
  if u.take 4 = "http" then u else "https://" ++ u

/-- Modelled from the spec: `MailUtils::chunksOfVector` is not among the
given sources; per the spec's Batch Fetcher section it groups a list into
consecutive fixed-size batches (no batch exceeds the cap, the last batch
may be smaller). The recursion is driven by an explicit length fuel so
that the function evaluates by kernel reduction; `chunksOfVector` below
instantiates the fuel with the list's length, which `chunksAux_congr`
shows is enough. -/
def chunksAux : Nat → List α → Nat → List (List α)
  | _, [], _ => []
  | _, _ :: _, 0 => []
  | 0, _ :: _, Nat.succ _ => []
  | Nat.succ fuel, a :: as, Nat.succ m =>
    (a :: as).take (m + 1) :: chunksAux fuel ((a :: as).drop (m + 1)) (m + 1)

/-- Grouping of a list into consecutive batches of at most `n` elements. -/
def chunksOfVector (v : List α) (n : Nat) : List (List α) :=
  chunksAux v.length v n

/-- Diff step of `runForAddressBook`: hrefs of remote entries whose etag is
not among the local etags (`needed`). -/
def computeNeeded (remote : List (String × String)) (localE : List String) : List String :=
  (remote.filter (fun p => ¬ (p.1 ∈ localE))).map Prod.snd

/-- Diff step of `runForAddressBook`: local etags that no longer appear as
a key of the remote listing (`deleted`). -/
def computeDeleted (remote : List (String × String)) (localE : List String) : List String :=
  localE.filter (fun e => ¬ (e ∈ remote.map Prod.fst))

/-- Local etag set of the collection: the `SELECT etag FROM Contact WHERE
bookId = ?` query, deduplicated because the C++ code collects the etags
into a `map<ETAG, bool>`. -/
def localEtags (contacts : List Contact) (bookId : String) : List String :=
  ((contacts.filter (fun c => c.bookId = bookId)).map (fun c => c.etag)).dedup

/-- Point query `store->find<Contact>(Query().equal("id", id))`. -/
def findContact (contacts : List Contact) (id : String) : Option Contact :=
  contacts.find? (fun c => c.id = id)

/-- Derived base id of `ingestAddressDataNode`:
`"ext-" + sourceId + "-" + (uid.empty() ? href : uid)`. -/
def ingestBaseId (sourceId : String) (item : ResponseItem) : String :=
  "ext-" ++ sourceId ++ "-" ++ (if item.parsed.uniqueId = "" then item.href else item.parsed.uniqueId)

/-- Row id for the email at index `i`: the base id for the first email,
`baseId + "-" + i` afterwards. -/
def contactRowId (baseId : String) (i : Nat) : String :=
  if i = 0 then baseId else baseId ++ "-" ++ toString i

/-- Shared info blob built once per payload (vcf, href, and the photo when
present and non-empty). -/
def ingestInfo (item : ResponseItem) : ContactInfo :=
  { vcf := item.vcardString, href := item.href,
    photo :=
      match item.parsed.photo with
      | some p => if p = "" then none else some p
      | none => none }

/-- Display name: formatted name, falling back to the structured name when
the formatted name is empty. -/
def ingestName (item : ResponseItem) : String :=
  if item.parsed.formattedName = "" then item.parsed.name else item.parsed.formattedName

/-- Body of the fan-out loop of `ingestAddressDataNode` for one non-empty
email: find the existing row with the derived id (keeping its account,
book, hidden flag and source) or create a fresh one bound to the account,
then set info, name, email and etag. -/
def fanOutRow (cs : List Contact) (accountId id em name : String) (info : ContactInfo)
    (etag : String) : Contact :=
  match findContact cs id with
  | some c => { c with info := info, name := name, email := em, etag := etag }
  | none =>
    { id := id, accountId := accountId, bookId := "", email := em, name := name,
      info := info, etag := etag, hidden := false, source := "external-carddav" }

/-- Guarded fan-out step: empty emails are skipped (but still consume their
index), non-empty emails produce their row. -/
def ingestRow (cs : List Contact) (sourceId accountId : String) (item : ResponseItem)
    (name : String) (info : ContactInfo) (ie : Nat × String) : Option Contact :=
  if ie.2 = "" then none
  else some (fanOutRow cs accountId (contactRowId (ingestBaseId sourceId item) ie.1)
    ie.2 name info item.etag)

/-- Embedding of `ExternalCardDAVWorker::ingestAddressDataNode`: returns the
contact rows produced for one response item together with the `isGroup`
out-parameter (which the C++ code initialises to `false` and only assigns
after the early-return guards). -/
def ingestAddressDataNode (cs : List Contact) (sourceId accountId : String)
    (item : ResponseItem) : List Contact × Bool :=
  if item.vcardString = "" then ([], false)
  else if item.parsed.incomplete then ([], false)
  else if item.parsed.emails = [] then ([], false)
  else
    (item.parsed.emails.enum.filterMap
      (ingestRow cs sourceId accountId item (ingestName item) (ingestInfo item)),
     item.parsed.isGroup)

/-- Ids of the rows an item fans out to. These depend only on the item (not
on the current store), so they are computed against the empty store. -/
def itemRowIds (sourceId accountId : String) (item : ResponseItem) : List String :=
  ((ingestAddressDataNode [] sourceId accountId item).1).map (fun c => c.id)

/-- Caller-side adjustment applied to each ingested row inside
`runForAddressBook`: `setBookId(ab->id())` and `setHidden(true)` when the
payload was a group card. -/
def appliedRow (bookId : String) (isGroup : Bool) (r : Contact) : Contact :=
  { r with bookId := bookId, hidden := if isGroup then true else r.hidden }

/-- Upsert semantics of `store->save`: replace the row(s) with the same id,
or append the row when its id is new. -/
def saveContact (cs : List Contact) (r : Contact) : List Contact :=
  if cs.any (fun c => c.id = r.id) then cs.map (fun c => if c.id = r.id then r else c)
  else cs ++ [r]

/-- Effect of running the deletion statement for each etag of `es` against
the collection `bookId`. -/
def deletePass (cs : List Contact) (bookId : String) (es : List String) : List Contact :=
  es.foldl (fun acc e => acc.filter (fun c => ¬ (c.bookId = bookId ∧ c.etag = e))) cs

/-- Deletion block at the top of each batch transaction: when the `deleted`
vector is non-empty, execute the deletion statement for each of its etags,
record the executions, and clear the vector. -/
def applyDeletions (bookId : String) (idx : Option Nat) (st : BatchSt) : BatchSt :=
  if st.deletedList.isEmpty then st
  else
    { contacts := deletePass st.contacts bookId st.deletedList,
      deletedList := [],
      events := st.events ++ st.deletedList.map (RunEvent.deleteExec idx) }

/-- Save loop over the rows ingested from one response item
(`setBookId`, conditional `setHidden`, `store->save`). -/
def saveRows (bookId : String) (isGroup : Bool) (idx : Nat) (st : BatchSt)
    (rows : List Contact) : BatchSt :=
  rows.foldl
    (fun acc r =>
      { acc with
        contacts := saveContact acc.contacts (appliedRow bookId isGroup r),
        events := acc.events ++ [RunEvent.saveExec idx (appliedRow bookId isGroup r).id] })
    st

/-- Processing of one `D:response` node of a batch: ingest it against the
current store, then save every resulting row. -/
def processResponseItem (sourceId accountId bookId : String) (idx : Nat)
    (st : BatchSt) (item : ResponseItem) : BatchSt :=
  let pr := ingestAddressDataNode st.contacts sourceId accountId item
  saveRows bookId pr.2 idx st pr.1

/-- Fold of `processResponseItem` over the response items of one batch. -/
def processItems (sourceId accountId bookId : String) (idx : Nat) (st : BatchSt)
    (items : List ResponseItem) : BatchSt :=
  items.foldl (processResponseItem sourceId accountId bookId idx) st

/-- One iteration of the batch loop of `runForAddressBook`: issue the
multiget for the chunk, then (inside the batch transaction) run the
scoped deletion block and ingest-and-save every response item. -/
def processBatch (fetchItem : String → ResponseItem) (sourceId accountId bookId : String)
    (idx : Nat) (st : BatchSt) (chunk : List String) : BatchSt :=
  let st1 := { st with events := st.events ++ [RunEvent.fetchExec idx chunk] }
  let st2 := applyDeletions bookId (some idx) st1
  processItems sourceId accountId bookId idx st2 (chunk.map fetchItem)

/-- Final deletion pass after the batch loop: when the `deleted` vector was
never consumed by a batch, execute the deletion statement for each of its
etags (without clearing the vector — it goes out of scope). -/
def finalSweep (bookId : String) (st : BatchSt) : BatchSt :=
  if st.deletedList.isEmpty then st
  else
    { st with
      contacts := deletePass st.contacts bookId st.deletedList,
      events := st.events ++ st.deletedList.map (RunEvent.deleteExec none) }

/-- Fold of `processBatch` over the indexed chunks of `needed`. -/
def processBatches (fetchItem : String → ResponseItem) (sourceId accountId bookId : String)
    (pairs : List (Nat × List String)) (st : BatchSt) : BatchSt :=
  pairs.foldl (fun acc ic => processBatch fetchItem sourceId accountId bookId ic.1 acc ic.2) st

/-- Embedding of `ExternalCardDAVWorker::runForAddressBook`: compute the
remote/local diff, process the `needed` hrefs in chunks of 90, run the
final deletion pass, and return the final state together with the remote
listing size (the function's return value). -/
def runForAddressBook (fetchItem : String → ResponseItem) (sourceId accountId bookId : String)
    (remote : List (String × String)) (contacts0 : List Contact) : BatchSt × Nat :=
  let localE := localEtags contacts0 bookId
  let needed := computeNeeded remote localE
  let deleted := computeDeleted remote localE
  let st0 : BatchSt := { contacts := contacts0, deletedList := deleted, events := [] }
  let st := processBatches fetchItem sourceId accountId bookId (chunksOfVector needed 90).enum st0
  (finalSweep bookId st, remote.length)

/-- Network environment of one run, with failure injection points for the
fatal failure modes of the spec: collection resolution, the listing
(addressbook-query) request, and each per-batch content-fetch (multiget)
request. An `Except.error` / `some` value carries the message of the C++
exception thrown by that call. -/
structure Env where
  resolve : Except String Unit
  listing : Except String (List (String × String))
  fetchBatchErr : Nat → Option String
  fetchItem : String → ResponseItem

/-- Batch loop with failure injection: a failing content-fetch throws,
carrying the state committed by the earlier batches; the in-flight batch is
never partially applied. -/
def runBatchesExc (env : Env) (sourceId accountId bookId : String) :
    List (Nat × List String) → BatchSt → Except (String × BatchSt) BatchSt
  | [], st => Except.ok st
  | ic :: rest, st =>
    match env.fetchBatchErr ic.1 with
    | some err => Except.error (err, st)
    | none =>
      runBatchesExc env sourceId accountId bookId rest
        (processBatch env.fetchItem sourceId accountId bookId ic.1 st ic.2)

/-- Embedding of `ExternalCardDAVWorker::run`: resolve the collection, run
`runForAddressBook` under the failure-injecting environment, and catch any
thrown exception at the top level, turning it into a `success = false`
result. Returns the result together with the final contact table. -/
def runExternal (env : Env) (sourceId sourceName accountId bookId : String)
    (contacts0 : List Contact) : SyncResult × List Contact :=
  match env.resolve with
  | Except.error e =>
    ({ sourceId := sourceId, sourceName := sourceName, contactCount := 0,
       success := false, error := e }, contacts0)
  | Except.ok _ =>
    match env.listing with
    | Except.error e =>
      ({ sourceId := sourceId, sourceName := sourceName, contactCount := 0,
         success := false, error := e }, contacts0)
    | Except.ok remote =>
      let localE := localEtags contacts0 bookId
      let needed := computeNeeded remote localE
      let deleted := computeDeleted remote localE
      let st0 : BatchSt := { contacts := contacts0, deletedList := deleted, events := [] }
      match runBatchesExc env sourceId accountId bookId (chunksOfVector needed 90).enum st0 with
      | Except.error (e, st) =>
        ({ sourceId := sourceId, sourceName := sourceName, contactCount := 0,
           success := false, error := e }, st.contacts)
      | Except.ok st =>
        ({ sourceId := sourceId, sourceName := sourceName, contactCount := remote.length,
           success := true, error := "" }, (finalSweep bookId st).contacts)

/-- Items that `ingestAddressDataNode` turns into at least one contact row:
non-empty payload text, a complete parse, and at least one non-empty email
address. -/
def Ingestible (item : ResponseItem) : Prop :=
  item.vcardString ≠ "" ∧ item.parsed.incomplete = false ∧
    ∃ em ∈ item.parsed.emails, em ≠ ""

instance (item : ResponseItem) : Decidable (Ingestible item) := by
  unfold Ingestible; infer_instance

/-- Recognizes a deletion-statement execution for the etag `e`. -/
def isDeleteFor (e : String) : RunEvent → Bool
  | RunEvent.deleteExec _ e2 => e2 = e
  | _ => false

/-- Recognizes a content-fetch (multiget) request event. -/
def isFetchEvent : RunEvent → Bool
  | RunEvent.fetchExec _ _ => true
  | _ => false

/-- Hypotheses under which a full run converges onto the remote listing:
the server returns, for each listed href, an item carrying the listed etag;
every listed payload is ingestible; rows fanned out from distinct listed
hrefs have disjoint ids; and no fanned-out id collides with a pre-existing
row of the collection whose etag is still listed remotely. -/
structure SyncHyps (fetchItem : String → ResponseItem) (sourceId accountId bookId : String)
    (remote : List (String × String)) (contacts0 : List Contact) : Prop where
  hfetch : ∀ p ∈ remote, (fetchItem p.2).etag = p.1
  hing : ∀ p ∈ remote, Ingestible (fetchItem p.2)
  hdisj1 : ∀ p ∈ remote, ∀ q ∈ remote, p.2 ≠ q.2 →
    ∀ i ∈ itemRowIds sourceId accountId (fetchItem p.2),
      i ∉ itemRowIds sourceId accountId (fetchItem q.2)
  hdisj2 : ∀ p ∈ remote, ∀ c ∈ contacts0, c.bookId = bookId →
    c.etag ∈ remote.map Prod.fst → c.id ∉ itemRowIds sourceId accountId (fetchItem p.2)

/-- Concrete info blob used by the example rows below. -/
def exampleInfo : ContactInfo :=
  { vcf := "VC", href := "h", photo := none }

/-- Pre-existing hidden row of the collection `b` with etag `e1` and the
derived id `ext-s-u`. -/
def exampleContactHidden : Contact :=
  { id := "ext-s-u", accountId := "a", bookId := "b", email := "old@x", name := "Old",
    info := exampleInfo, etag := "e1", hidden := true, source := "external-carddav" }

/-- Response item whose payload parses but exposes no email addresses. -/
def exampleItemNoEmail : ResponseItem :=
  { etag := "e1", href := "h1", vcardString := "BEGIN:VCARD",
    parsed := { incomplete := false, uniqueId := "u0", formattedName := "N", name := "N2",
                emails := [], photo := none, isGroup := false } }

/-- Response item with unique-id `u` (colliding with `exampleContactHidden`),
etag `e2`, one email, not a group. -/
def exampleItemUidU : ResponseItem :=
  { etag := "e2", href := "h2", vcardString := "BEGIN:VCARD",
    parsed := { incomplete := false, uniqueId := "u", formattedName := "New", name := "N2",
                emails := ["new@x"], photo := none, isGroup := false } }

/-- Response item whose payload parses and lists exactly one email address,
whose value is the empty string. -/
def exampleItemEmptyEmail : ResponseItem :=
  { etag := "e3", href := "h3", vcardString := "BEGIN:VCARD",
    parsed := { incomplete := false, uniqueId := "u3", formattedName := "N", name := "N2",
                emails := [""], photo := none, isGroup := false } }

/-- Response item whose first listed email is empty and whose second is
non-empty. -/
def exampleItemFirstEmailEmpty : ResponseItem :=
  { etag := "e5", href := "h5", vcardString := "BEGIN:VCARD",
    parsed := { incomplete := false, uniqueId := "u5", formattedName := "N", name := "N2",
                emails := ["", "b@x"], photo := none, isGroup := false } }

/-- Response item with three non-empty email addresses and a photo. -/
def exampleItemThreeEmails : ResponseItem :=
  { etag := "e9", href := "h9", vcardString := "BEGIN:VCARD",
    parsed := { incomplete := false, uniqueId := "u9", formattedName := "F", name := "N",
                emails := ["a@x", "b@x", "c@x"], photo := some "P", isGroup := false } }

/-- Row produced by ingesting `exampleItemUidU` against a store holding
`exampleContactHidden`. -/
def exampleFanRow : Contact :=
  { exampleContactHidden with
    info := ingestInfo exampleItemUidU,
    name := ingestName exampleItemUidU, email := "new@x", etag := "e2" }

/-- Fully well-behaved response item for etag `e1` at href `h1`. -/
def exampleItemGood : ResponseItem :=
  { etag := "e1", href := "h1", vcardString := "BEGIN:VCARD",
    parsed := { incomplete := false, uniqueId := "u", formattedName := "Ann", name := "A",
                emails := ["a@x"], photo := none, isGroup := false } }

/-- Environment whose listing request throws with message `listing failed`. -/
def exampleEnvListingFail : Env :=
  { resolve := Except.ok (), listing := Except.error "listing failed",
    fetchBatchErr := fun _ => none, fetchItem := fun _ => exampleItemGood }

/-- Store-shape invariant maintained from the first batch's deletion block
on: every row of the collection carries a remotely listed etag, and every
pre-existing row of the collection whose etag is still listed remotely is
still present. -/
def StoreInv (bookId : String) (keys : List String) (contacts0 : List Contact)
    (cs : List Contact) : Prop :=
  (∀ c ∈ cs, c.bookId = bookId → c.etag ∈ keys) ∧
  (∀ c ∈ contacts0, c.bookId = bookId → c.etag ∈ keys → c ∈ cs)

/-- Coverage predicate: every href satisfying `P` already has, in the
store, a row of the collection carrying the etag of its fetched item, with
an id belonging to that item's fan-out. -/
def CoversP (fetchItem : String → ResponseItem) (sourceId accountId bookId : String)
    (cs : List Contact) (P : String → Prop) : Prop :=
  ∀ h, P h → ∃ c ∈ cs, c.bookId = bookId ∧ c.etag = (fetchItem h).etag ∧
    c.id ∈ itemRowIds sourceId accountId (fetchItem h)

/-!  General lemmas about the diff computation. -/

theorem mem_computeNeeded (remote : List (String × String)) (localE : List String)
    (h : String) :
    h ∈ computeNeeded remote localE ↔ ∃ e, (e, h) ∈ remote ∧ e ∉ localE := by
  unfold computeNeeded
  simp only [List.mem_map, List.mem_filter, decide_not, Bool.not_eq_eq_eq_not,
    Bool.not_true, decide_eq_false_iff_not]
  constructor
  · rintro ⟨⟨e, h2⟩, ⟨hmem, hdec⟩, rfl⟩
    exact ⟨e, hmem, hdec⟩
  · rintro ⟨e, hmem, hnot⟩
    exact ⟨(e, h), ⟨hmem, hnot⟩, rfl⟩

theorem mem_computeDeleted (remote : List (String × String)) (localE : List String)
    (e : String) :
    e ∈ computeDeleted remote localE ↔ e ∈ localE ∧ e ∉ remote.map Prod.fst := by
  unfold computeDeleted
  simp [List.mem_filter]

/-- C1: for every remote etag-to-href mapping and every local etag set, the
`needed` list contains exactly the hrefs of remote etags absent locally, and
the `deleted` list contains exactly the local etags absent remotely; an etag
present on both sides contributes to neither list. -/
theorem diff_correctness (remote : List (String × String)) (localE : List String) :
    (∀ h, h ∈ computeNeeded remote localE ↔ ∃ e, (e, h) ∈ remote ∧ e ∉ localE) ∧
    (∀ e, e ∈ computeDeleted remote localE ↔ e ∈ localE ∧ ∀ h, (e, h) ∉ remote) := by
  constructor
  · exact fun h => mem_computeNeeded remote localE h
  · intro e
    rw [mem_computeDeleted]
    constructor
    · rintro ⟨hl, hnk⟩
      refine ⟨hl, fun h hmem => hnk ?_⟩
      exact List.mem_map.mpr ⟨(e, h), hmem, rfl⟩
    · rintro ⟨hl, hnk⟩
      refine ⟨hl, fun hk => ?_⟩
      rcases List.mem_map.mp hk with ⟨⟨e2, h2⟩, hmem, he⟩
      cases he
      exact hnk h2 hmem

/-!  Lemmas about the spec-modelled chunking function. -/

theorem chunksAux_congr (f1 : Nat) : ∀ (f2 : Nat) (v : List α) (n : Nat),
    v.length ≤ f1 → v.length ≤ f2 → chunksAux f1 v n = chunksAux f2 v n := by
  induction f1 with
  | zero =>
    intro f2 v n h1 h2
    have hv : v = [] := List.length_eq_zero.mp (Nat.le_zero.mp h1)
    subst hv
    cases f2 <;> cases n <;> rfl
  | succ f ih =>
    intro f2 v n h1 h2
    cases v with
    | nil => cases f2 <;> cases n <;> rfl
    | cons a as =>
      cases n with
      | zero => cases f2 <;> rfl
      | succ m =>
        cases f2 with
        | zero =>
          exact absurd h2 (by simp)
        | succ f2p =>
          simp only [chunksAux]
          congr 1
          apply ih
          · simp only [List.length_drop, List.length_cons] at h1 ⊢
            omega
          · simp only [List.length_drop, List.length_cons] at h2 ⊢
            omega

theorem chunksOfVector_nil (n : Nat) : chunksOfVector ([] : List α) n = [] := by
  cases n <;> rfl

theorem chunksOfVector_cons (a : α) (as : List α) (m : Nat) :
    chunksOfVector (a :: as) (m + 1) =
      (a :: as).take (m + 1) :: chunksOfVector ((a :: as).drop (m + 1)) (m + 1) := by
  unfold chunksOfVector
  rw [show (a :: as).length = as.length + 1 from rfl]
  simp only [chunksAux]
  congr 1
  apply chunksAux_congr
  · simp only [List.length_drop, List.length_cons]
    omega
  · exact le_rfl

theorem chunksOfVector_eq_nil_iff (v : List α) (m : Nat) :
    chunksOfVector v (m + 1) = [] ↔ v = [] := by
  cases v with
  | nil => simp [chunksOfVector_nil]
  | cons a as => simp [chunksOfVector_cons]

theorem chunksOfVector_flatten (v : List α) (m : Nat) :
    (chunksOfVector v (m + 1)).flatten = v := by
  match v with
  | [] => simp [chunksOfVector_nil]
  | a :: as =>
    rw [chunksOfVector_cons]
    simp only [List.flatten_cons]
    rw [chunksOfVector_flatten ((a :: as).drop (m + 1)) m]
    exact List.take_append_drop _ _
termination_by v.length
decreasing_by
  simp [List.length_drop]
  omega

theorem chunksOfVector_chunk_le (v : List α) (m : Nat) :
    ∀ c ∈ chunksOfVector v (m + 1), c.length ≤ m + 1 := by
  match v with
  | [] => simp [chunksOfVector_nil]
  | a :: as =>
    rw [chunksOfVector_cons]
    intro c hc
    rcases List.mem_cons.mp hc with rfl | hmem
    · simp
    · exact chunksOfVector_chunk_le ((a :: as).drop (m + 1)) m c hmem
termination_by v.length
decreasing_by
  simp [List.length_drop]
  omega

theorem chunksOfVector_length_90 (v : List α) :
    (chunksOfVector v 90).length = (v.length + 89) / 90 := by
  match v with
  | [] => simp [chunksOfVector_nil]
  | a :: as =>
    have h90 : (90 : Nat) = 89 + 1 := rfl
    rw [h90, chunksOfVector_cons, List.length_cons,
      chunksOfVector_length_90 ((a :: as).drop (89 + 1))]
    simp only [List.length_drop, List.length_cons]
    omega
termination_by v.length
decreasing_by
  simp [List.length_drop]
  omega

/-!  Lemmas about ingestion. -/

theorem findContact_id (cs : List Contact) (id : String) (c : Contact)
    (h : findContact cs id = some c) : c.id = id := by
  unfold findContact at h
  have h2 := List.find?_some h
  exact of_decide_eq_true h2

theorem fanOutRow_id (cs : List Contact) (A id em name : String) (info : ContactInfo)
    (etag : String) : (fanOutRow cs A id em name info etag).id = id := by
  unfold fanOutRow
  cases hf : findContact cs id with
  | some c => simpa using findContact_id cs id c hf
  | none => rfl

theorem fanOutRow_etag (cs : List Contact) (A id em name : String) (info : ContactInfo)
    (etag : String) : (fanOutRow cs A id em name info etag).etag = etag := by
  unfold fanOutRow
  cases hf : findContact cs id <;> rfl

theorem fanOutRow_name (cs : List Contact) (A id em name : String) (info : ContactInfo)
    (etag : String) : (fanOutRow cs A id em name info etag).name = name := by
  unfold fanOutRow
  cases hf : findContact cs id <;> rfl

theorem fanOutRow_info (cs : List Contact) (A id em name : String) (info : ContactInfo)
    (etag : String) : (fanOutRow cs A id em name info etag).info = info := by
  unfold fanOutRow
  cases hf : findContact cs id <;> rfl

theorem fanOutRow_email (cs : List Contact) (A id em name : String) (info : ContactInfo)
    (etag : String) : (fanOutRow cs A id em name info etag).email = em := by
  unfold fanOutRow
  cases hf : findContact cs id <;> rfl

theorem contactRowId_zero (b : String) : contactRowId b 0 = b := by
  simp [contactRowId]

theorem contactRowId_one (b : String) : contactRowId b 1 = b ++ "-1" := by
  unfold contactRowId
  rw [if_neg (by decide : ¬ (1 : Nat) = 0), String.append_assoc]
  rfl

theorem contactRowId_two (b : String) : contactRowId b 2 = b ++ "-2" := by
  unfold contactRowId
  rw [if_neg (by decide : ¬ (2 : Nat) = 0), String.append_assoc]
  rfl

theorem ingestBaseId_of_uid (S : String) (item : ResponseItem)
    (huid : item.parsed.uniqueId ≠ "") :
    ingestBaseId S item = "ext-" ++ S ++ "-" ++ item.parsed.uniqueId := by
  simp [ingestBaseId, huid]

theorem fanOutRow_hidden (cs : List Contact) (A id em name : String) (info : ContactInfo)
    (etag : String) :
    (fanOutRow cs A id em name info etag).hidden =
      (match findContact cs id with
       | some c => c.hidden
       | none => false) := by
  unfold fanOutRow
  cases hf : findContact cs id <;> simp [hf]

theorem contactRowId_ne_base (b : String) (i : Nat) (hi : i ≠ 0) : contactRowId b i ≠ b := by
  unfold contactRowId
  rw [if_neg hi]
  intro h
  have hlen := congrArg String.length h
  rw [String.length_append, String.length_append] at hlen
  have hone : ("-" : String).length = 1 := rfl
  rw [hone] at hlen
  omega

theorem ingest_rows_of_guards (cs : List Contact) (S A : String) (item : ResponseItem)
    (hvc : item.vcardString ≠ "") (hinc : item.parsed.incomplete = false) :
    (ingestAddressDataNode cs S A item).1 =
      item.parsed.emails.enum.filterMap
        (ingestRow cs S A item (ingestName item) (ingestInfo item)) := by
  unfold ingestAddressDataNode
  rw [if_neg hvc, hinc]
  by_cases hemp : item.parsed.emails = []
  · simp [hemp]
  · simp [hemp]

theorem ingest_isGroup_of_guards (cs : List Contact) (S A : String) (item : ResponseItem)
    (hvc : item.vcardString ≠ "") (hinc : item.parsed.incomplete = false)
    (hemp : item.parsed.emails ≠ []) :
    (ingestAddressDataNode cs S A item).2 = item.parsed.isGroup := by
  unfold ingestAddressDataNode
  rw [if_neg hvc, hinc]
  simp [hemp]

theorem ingest_ids (cs : List Contact) (S A : String) (item : ResponseItem)
    (hvc : item.vcardString ≠ "") (hinc : item.parsed.incomplete = false) :
    ((ingestAddressDataNode cs S A item).1).map (fun r => r.id) =
      item.parsed.emails.enum.filterMap
        (fun ie => if ie.2 = "" then none
                   else some (contactRowId (ingestBaseId S item) ie.1)) := by
  rw [ingest_rows_of_guards cs S A item hvc hinc, List.map_filterMap]
  congr 1
  funext ie
  unfold ingestRow
  by_cases he : ie.2 = ""
  · simp [he]
  · simp [he, fanOutRow_id]

/-- C5: a parsed payload with non-empty unique-id and non-empty email
addresses `[a, b, c]` yields exactly three contact rows whose ids are
`ext-S-U`, `ext-S-U-1` and `ext-S-U-2`, all sharing the payload's display
name, info blob and etag, and carrying the three emails in order. -/
theorem fanout_three_emails (cs : List Contact) (S A : String) (item : ResponseItem)
    (a b c : String)
    (hvc : item.vcardString ≠ "") (hinc : item.parsed.incomplete = false)
    (huid : item.parsed.uniqueId ≠ "")
    (hem : item.parsed.emails = [a, b, c])
    (ha : a ≠ "") (hb : b ≠ "") (hc : c ≠ "") :
    ((ingestAddressDataNode cs S A item).1).map (fun r => r.id) =
      ["ext-" ++ S ++ "-" ++ item.parsed.uniqueId,
       "ext-" ++ S ++ "-" ++ item.parsed.uniqueId ++ "-1",
       "ext-" ++ S ++ "-" ++ item.parsed.uniqueId ++ "-2"] ∧
    ((ingestAddressDataNode cs S A item).1).map (fun r => r.email) = [a, b, c] ∧
    (∀ r ∈ (ingestAddressDataNode cs S A item).1,
      r.name = ingestName item ∧ r.info = ingestInfo item ∧ r.etag = item.etag) := by
  have hrows : (ingestAddressDataNode cs S A item).1 =
      [fanOutRow cs A (contactRowId (ingestBaseId S item) 0) a (ingestName item)
         (ingestInfo item) item.etag,
       fanOutRow cs A (contactRowId (ingestBaseId S item) 1) b (ingestName item)
         (ingestInfo item) item.etag,
       fanOutRow cs A (contactRowId (ingestBaseId S item) 2) c (ingestName item)
         (ingestInfo item) item.etag] := by
    rw [ingest_rows_of_guards cs S A item hvc hinc, hem]
    simp [List.enum, List.enumFrom, List.filterMap_cons, ingestRow, ha, hb, hc]
  refine ⟨?_, ?_, ?_⟩
  · rw [hrows]
    simp only [List.map_cons, List.map_nil, fanOutRow_id]
    rw [contactRowId_zero, contactRowId_one, contactRowId_two,
      ingestBaseId_of_uid S item huid]
  · rw [hrows]
    simp only [List.map_cons, List.map_nil, fanOutRow_email]
  · rw [hrows]
    intro r hr
    rw [List.mem_cons, List.mem_cons, List.mem_singleton] at hr
    rcases hr with rfl | rfl | rfl
    · exact ⟨fanOutRow_name _ _ _ _ _ _ _, fanOutRow_info _ _ _ _ _ _ _,
        fanOutRow_etag _ _ _ _ _ _ _⟩
    · exact ⟨fanOutRow_name _ _ _ _ _ _ _, fanOutRow_info _ _ _ _ _ _ _,
        fanOutRow_etag _ _ _ _ _ _ _⟩
    · exact ⟨fanOutRow_name _ _ _ _ _ _ _, fanOutRow_info _ _ _ _ _ _ _,
        fanOutRow_etag _ _ _ _ _ _ _⟩

theorem fanout_three_emails_witness :
    exampleItemThreeEmails.parsed.uniqueId ≠ "" ∧
    ((ingestAddressDataNode [] ("s") ("a") exampleItemThreeEmails).1).map (fun r => r.id) =
      ["ext-" ++ "s" ++ "-" ++ exampleItemThreeEmails.parsed.uniqueId,
       "ext-" ++ "s" ++ "-" ++ exampleItemThreeEmails.parsed.uniqueId ++ "-1",
       "ext-" ++ "s" ++ "-" ++ exampleItemThreeEmails.parsed.uniqueId ++ "-2"] :=
  ⟨by decide,
   (fanout_three_emails [] ("s") ("a") exampleItemThreeEmails ("a@x") ("b@x") ("c@x")
     (by decide) rfl (by decide) rfl (by decide) (by decide) (by decide)).1⟩

/-- C10: the numeric id suffix of each fanned-out row is the email's
position in the payload's full email list — empty entries are skipped but
still consume their index — and when the first listed email is empty no
row carries the unsuffixed base id. -/
theorem fanout_positional_ids (cs : List Contact) (S A : String) (item : ResponseItem)
    (hvc : item.vcardString ≠ "") (hinc : item.parsed.incomplete = false) :
    ((ingestAddressDataNode cs S A item).1).map (fun r => r.id) =
      item.parsed.emails.enum.filterMap
        (fun ie => if ie.2 = "" then none
                   else some (contactRowId (ingestBaseId S item) ie.1)) ∧
    (∀ rest, item.parsed.emails = "" :: rest →
      ingestBaseId S item ∉ ((ingestAddressDataNode cs S A item).1).map (fun r => r.id)) := by
  refine ⟨ingest_ids cs S A item hvc hinc, ?_⟩
  intro rest hrest hmem
  rw [ingest_ids cs S A item hvc hinc, hrest] at hmem
  rw [show ("" :: rest).enum = (0, "") :: List.enumFrom 1 rest from rfl] at hmem
  rw [List.filterMap_cons] at hmem
  simp only [if_pos rfl] at hmem
  rcases List.mem_filterMap.mp hmem with ⟨ie, hie, heq⟩
  have h1 : 1 ≤ ie.1 := List.le_fst_of_mem_enumFrom hie
  by_cases he : ie.2 = ""
  · rw [if_pos he] at heq
    cases heq
  · rw [if_neg he] at heq
    exact contactRowId_ne_base (ingestBaseId S item) ie.1 (by omega) (Option.some.inj heq)

theorem fanout_positional_ids_witness :
    exampleItemFirstEmailEmpty.vcardString ≠ "" ∧
    ingestBaseId ("s") exampleItemFirstEmailEmpty ∉
      ((ingestAddressDataNode [] ("s") ("a") exampleItemFirstEmailEmpty).1).map
        (fun r => r.id) :=
  ⟨by decide,
   (fanout_positional_ids [] ("s") ("a") exampleItemFirstEmailEmpty (by decide) rfl).2
     ["b@x"] rfl⟩

/-- C8 (amended): ingestion returns zero contact rows exactly when the
payload text is empty, the payload parses to an incomplete record, or
every listed email address is the empty string (in particular when none is
listed); and a skipped item leaves the batch state unchanged, so it cannot
alter the accounting of other items. -/
theorem ingest_skip_conditions (cs : List Contact) (S A : String) (item : ResponseItem) :
    ((ingestAddressDataNode cs S A item).1 = [] ↔
      (item.vcardString = "" ∨ item.parsed.incomplete = true ∨
        ∀ em ∈ item.parsed.emails, em = "")) ∧
    (∀ bookId idx (st : BatchSt), (ingestAddressDataNode st.contacts S A item).1 = [] →
      processResponseItem S A bookId idx st item = st) := by
  constructor
  · by_cases hvc : item.vcardString = ""
    · simp [ingestAddressDataNode, hvc]
    · by_cases hinc : item.parsed.incomplete = true
      · simp [ingestAddressDataNode, hvc, hinc]
      · have hinc2 : item.parsed.incomplete = false := by
          simpa using hinc
        rw [ingest_rows_of_guards cs S A item hvc hinc2]
        rw [List.filterMap_eq_nil_iff]
        constructor
        · intro hall
          refine Or.inr (Or.inr ?_)
          intro em hem
          have hmem : em ∈ item.parsed.emails.enum.map Prod.snd := by
            rw [List.enum_map_snd]
            exact hem
          rcases List.mem_map.mp hmem with ⟨ie, hie, hsnd⟩
          have hnone := hall ie hie
          unfold ingestRow at hnone
          by_cases he : ie.2 = ""
          · rw [← hsnd]
            exact he
          · rw [if_neg he] at hnone
            cases hnone
        · rintro (h | h | hall)
          · exact absurd h hvc
          · exact absurd h hinc
          · intro ie hie
            have he : ie.2 = "" := hall ie.2 (List.snd_mem_of_mem_enum hie)
            unfold ingestRow
            rw [if_pos he]
  · intro bookId idx st hnil
    show saveRows bookId (ingestAddressDataNode st.contacts S A item).2 idx st
      (ingestAddressDataNode st.contacts S A item).1 = st
    rw [hnil]
    rfl

/-- C8 counterexample: a payload with non-empty text, a complete parse and
a non-empty email list (its single address being the empty string) also
yields zero rows, so the claim's three skip conditions are not exhaustive. -/
theorem ingest_skip_counterexample :
    (ingestAddressDataNode [] ("s") ("a") exampleItemEmptyEmail).1 = [] ∧
    exampleItemEmptyEmail.vcardString ≠ "" ∧
    exampleItemEmptyEmail.parsed.incomplete = false ∧
    exampleItemEmptyEmail.parsed.emails ≠ [] := by
  decide

theorem ingest_skip_conditions_witness :
    (ingestAddressDataNode ([] : List Contact) ("s") ("a") exampleItemNoEmail).1 = [] ∧
    processResponseItem ("s") ("a") ("b") 0
      { contacts := [], deletedList := [], events := [] } exampleItemNoEmail =
      { contacts := [], deletedList := [], events := [] } :=
  ⟨by decide,
   (ingest_skip_conditions [] ("s") ("a") exampleItemNoEmail).2 ("b") 0
     { contacts := [], deletedList := [], events := [] } (by decide)⟩

/-- C6 (amended): a group payload yields every fanned-out row with
`hidden = true`; a non-group payload yields rows whose hidden flag is the
stored hidden value of the pre-existing row with the same derived id when
one exists, and `false` for freshly created rows — the worker never resets
an existing row's hidden flag. -/
theorem group_flag_hidden (cs : List Contact) (S A bookId : String) (item : ResponseItem) :
    ∀ r ∈ (ingestAddressDataNode cs S A item).1,
      (appliedRow bookId (ingestAddressDataNode cs S A item).2 r).hidden =
        (if (ingestAddressDataNode cs S A item).2 then true
         else
           match findContact cs r.id with
           | some c => c.hidden
           | none => false) := by
  intro r hr
  have hguards : item.vcardString ≠ "" ∧ item.parsed.incomplete = false := by
    by_cases hvc : item.vcardString = ""
    · rw [show (ingestAddressDataNode cs S A item).1 = [] by
        simp [ingestAddressDataNode, hvc]] at hr
      cases hr
    · by_cases hinc : item.parsed.incomplete = true
      · rw [show (ingestAddressDataNode cs S A item).1 = [] by
          simp [ingestAddressDataNode, hvc, hinc]] at hr
        cases hr
      · exact ⟨hvc, by simpa using hinc⟩
  rw [ingest_rows_of_guards cs S A item hguards.1 hguards.2] at hr
  rcases List.mem_filterMap.mp hr with ⟨ie, hie, heq⟩
  unfold ingestRow at heq
  by_cases he : ie.2 = ""
  · rw [if_pos he] at heq
    cases heq
  · rw [if_neg he] at heq
    have hr2 := Option.some.inj heq
    unfold appliedRow
    by_cases hg : (ingestAddressDataNode cs S A item).2
    · simp [hg]
    · have hg2 : (ingestAddressDataNode cs S A item).2 = false := by
        simpa using hg
      rw [hg2]
      simp only [Bool.false_eq_true, if_false, ite_false]
      rw [← hr2, fanOutRow_id, fanOutRow_hidden]

theorem group_flag_hidden_witness :
    exampleFanRow ∈ (ingestAddressDataNode [exampleContactHidden] ("s") ("a")
      exampleItemUidU).1 ∧
    (appliedRow ("b") (ingestAddressDataNode [exampleContactHidden] ("s") ("a")
        exampleItemUidU).2 exampleFanRow).hidden =
      (if (ingestAddressDataNode [exampleContactHidden] ("s") ("a") exampleItemUidU).2
       then true
       else
         match findContact [exampleContactHidden] exampleFanRow.id with
         | some c => c.hidden
         | none => false) :=
  ⟨by decide,
   group_flag_hidden [exampleContactHidden] ("s") ("a") ("b") exampleItemUidU
     exampleFanRow (by decide)⟩

/-- C6 counterexample: a full run over a non-group payload whose derived id
collides with a pre-existing hidden row leaves that row hidden — the claim
that a non-group payload yields `hidden = false` for rows that already
existed in the store fails. -/
theorem group_flag_counterexample :
    ((runForAddressBook (fun _ => exampleItemUidU) ("s") ("a") ("b")
        [("e1", "h1"), ("e2", "h2")] [exampleContactHidden]).1.contacts.map
      (fun c => c.hidden)) = [true] ∧
    exampleItemUidU.parsed.isGroup = false := by
  decide

/-- C9 (amended): a URL whose text does not begin with the four characters
`http` is coerced to secure transport by prefixing `https://`; a URL whose
text begins with `http` (which covers well-formed `http://` and `https://`
URLs, but also scheme-less hosts that happen to start with `http`) is left
unchanged. -/
theorem url_http_prefix_coercion (u : String) :
    (u.take 4 = "http" → requestUrl u = u) ∧
    (u.take 4 ≠ "http" → requestUrl u = "https://" ++ u) := by
  unfold requestUrl
  constructor
  · intro h
    rw [if_pos h]
  · intro h
    rw [if_neg h]

theorem url_http_prefix_coercion_witness :
    ("example.com" : String).take 4 ≠ "http" ∧
    requestUrl ("example.com") = "https://example.com" :=
  ⟨by decide, (url_http_prefix_coercion ("example.com")).2 (by decide)⟩

/-- C9 counterexample: `ftp://example.com` carries a scheme yet is altered
(it gets an `https://` prefix), and `httpfoo.example.com` lacks a scheme
yet is left unchanged — the coercion tests the literal prefix `http`, not
the presence of a scheme. -/
theorem url_scheme_coercion_counterexample :
    requestUrl ("ftp://example.com") = "https://ftp://example.com" ∧
    requestUrl ("httpfoo.example.com") = "httpfoo.example.com" := by
  decide

/-!  Structural lemmas about the event trace of one run. -/

theorem saveRows_nil (bookId : String) (g : Bool) (idx : Nat) (st : BatchSt) :
    saveRows bookId g idx st [] = st := rfl

theorem saveRows_cons (bookId : String) (g : Bool) (idx : Nat) (st : BatchSt)
    (r : Contact) (rest : List Contact) :
    saveRows bookId g idx st (r :: rest) =
      saveRows bookId g idx
        { st with
          contacts := saveContact st.contacts (appliedRow bookId g r),
          events := st.events ++ [RunEvent.saveExec idx (appliedRow bookId g r).id] }
        rest := rfl

theorem saveRows_deletedList (bookId : String) (g : Bool) (idx : Nat) (rows : List Contact) :
    ∀ st : BatchSt, (saveRows bookId g idx st rows).deletedList = st.deletedList := by
  induction rows with
  | nil => intro st; rfl
  | cons r rest ih =>
    intro st
    rw [saveRows_cons]
    exact ih _

theorem saveRows_events (bookId : String) (g : Bool) (idx : Nat) (rows : List Contact) :
    ∀ st : BatchSt, (saveRows bookId g idx st rows).events =
      st.events ++ rows.map (fun r => RunEvent.saveExec idx (appliedRow bookId g r).id) := by
  induction rows with
  | nil => intro st; simp [saveRows_nil]
  | cons r rest ih =>
    intro st
    rw [saveRows_cons, ih]
    simp

theorem processResponseItem_deletedList (S A bookId : String) (idx : Nat) (st : BatchSt)
    (item : ResponseItem) :
    (processResponseItem S A bookId idx st item).deletedList = st.deletedList := by
  unfold processResponseItem
  exact saveRows_deletedList _ _ _ _ _

theorem processResponseItem_events (S A bookId : String) (idx : Nat) (st : BatchSt)
    (item : ResponseItem) :
    ∃ l, (processResponseItem S A bookId idx st item).events = st.events ++ l ∧
      ∀ ev ∈ l, ∃ i id2, ev = RunEvent.saveExec i id2 := by
  unfold processResponseItem
  refine ⟨_, saveRows_events _ _ _ _ _, ?_⟩
  intro ev hev
  rcases List.mem_map.mp hev with ⟨r, _, hr⟩
  exact ⟨idx, (appliedRow bookId _ r).id, hr.symm⟩

theorem processItems_deletedList (S A bookId : String) (idx : Nat)
    (items : List ResponseItem) :
    ∀ st : BatchSt, (processItems S A bookId idx st items).deletedList = st.deletedList := by
  induction items with
  | nil => intro st; rfl
  | cons item rest ih =>
    intro st
    show (processItems S A bookId idx (processResponseItem S A bookId idx st item) rest).deletedList = _
    rw [ih, processResponseItem_deletedList]

theorem processItems_events (S A bookId : String) (idx : Nat) (items : List ResponseItem) :
    ∀ st : BatchSt, ∃ l, (processItems S A bookId idx st items).events = st.events ++ l ∧
      ∀ ev ∈ l, ∃ i id2, ev = RunEvent.saveExec i id2 := by
  induction items with
  | nil => intro st; exact ⟨[], by simp [processItems], by simp⟩
  | cons item rest ih =>
    intro st
    rcases processResponseItem_events S A bookId idx st item with ⟨l1, h1, hall1⟩
    rcases ih (processResponseItem S A bookId idx st item) with ⟨l2, h2, hall2⟩
    refine ⟨l1 ++ l2, ?_, ?_⟩
    · show (processItems S A bookId idx (processResponseItem S A bookId idx st item) rest).events = _
      rw [h2, h1, List.append_assoc]
    · intro ev hev
      rcases List.mem_append.mp hev with h | h
      · exact hall1 ev h
      · exact hall2 ev h

theorem applyDeletions_of_nil (bookId : String) (idx : Option Nat) (st : BatchSt)
    (h : st.deletedList = []) : applyDeletions bookId idx st = st := by
  unfold applyDeletions
  rw [if_pos (List.isEmpty_iff.mpr h)]

theorem applyDeletions_of_ne (bookId : String) (idx : Option Nat) (st : BatchSt)
    (h : st.deletedList ≠ []) :
    applyDeletions bookId idx st =
      { contacts := deletePass st.contacts bookId st.deletedList, deletedList := [],
        events := st.events ++ st.deletedList.map (RunEvent.deleteExec idx) } := by
  unfold applyDeletions
  rw [if_neg (by simpa [List.isEmpty_iff] using h)]

theorem finalSweep_of_nil (bookId : String) (st : BatchSt) (h : st.deletedList = []) :
    finalSweep bookId st = st := by
  unfold finalSweep
  rw [if_pos (List.isEmpty_iff.mpr h)]

theorem finalSweep_of_ne (bookId : String) (st : BatchSt) (h : st.deletedList ≠ []) :
    finalSweep bookId st =
      { st with
        contacts := deletePass st.contacts bookId st.deletedList,
        events := st.events ++ st.deletedList.map (RunEvent.deleteExec none) } := by
  unfold finalSweep
  rw [if_neg (by simpa [List.isEmpty_iff] using h)]

theorem processBatch_eq (f : String → ResponseItem) (S A bookId : String)
    (idx : Nat) (st : BatchSt) (chunk : List String) :
    processBatch f S A bookId idx st chunk =
      processItems S A bookId idx
        (applyDeletions bookId (some idx)
          { st with events := st.events ++ [RunEvent.fetchExec idx chunk] })
        (chunk.map f) := rfl

theorem processBatch_deletedList (f : String → ResponseItem) (S A bookId : String)
    (idx : Nat) (st : BatchSt) (chunk : List String) :
    (processBatch f S A bookId idx st chunk).deletedList = [] := by
  rw [processBatch_eq, processItems_deletedList]
  by_cases h : st.deletedList = []
  · rw [applyDeletions_of_nil bookId (some idx)
      { st with events := st.events ++ [RunEvent.fetchExec idx chunk] } h]
    exact h
  · rw [applyDeletions_of_ne bookId (some idx)
      { st with events := st.events ++ [RunEvent.fetchExec idx chunk] } h]

theorem processBatch_events (f : String → ResponseItem) (S A bookId : String)
    (idx : Nat) (st : BatchSt) (chunk : List String) :
    ∃ l, (processBatch f S A bookId idx st chunk).events =
      st.events ++ [RunEvent.fetchExec idx chunk] ++
        (if st.deletedList = [] then []
         else st.deletedList.map (RunEvent.deleteExec (some idx))) ++ l ∧
      ∀ ev ∈ l, ∃ i id2, ev = RunEvent.saveExec i id2 := by
  rw [processBatch_eq]
  by_cases h : st.deletedList = []
  · rw [applyDeletions_of_nil bookId (some idx)
      { st with events := st.events ++ [RunEvent.fetchExec idx chunk] } h]
    rcases processItems_events S A bookId idx (chunk.map f)
        { st with events := st.events ++ [RunEvent.fetchExec idx chunk] } with ⟨l, hl, hall⟩
    refine ⟨l, ?_, hall⟩
    rw [hl]
    simp [h]
  · rw [applyDeletions_of_ne bookId (some idx)
      { st with events := st.events ++ [RunEvent.fetchExec idx chunk] } h]
    dsimp only
    rcases processItems_events S A bookId idx (chunk.map f)
        { contacts := deletePass st.contacts bookId st.deletedList,
          deletedList := [],
          events := (st.events ++ [RunEvent.fetchExec idx chunk]) ++
            st.deletedList.map (RunEvent.deleteExec (some idx)) } with ⟨l, hl, hall⟩
    refine ⟨l, ?_, hall⟩
    rw [hl]
    simp [h, List.append_assoc]

theorem filter_fetch_of_saves (l : List RunEvent)
    (h : ∀ ev ∈ l, ∃ i id2, ev = RunEvent.saveExec i id2) :
    l.filter isFetchEvent = [] := by
  rw [List.filter_eq_nil_iff]
  intro ev hev
  rcases h ev hev with ⟨i, id2, rfl⟩
  simp [isFetchEvent]

theorem filter_delete_of_saves (e : String) (l : List RunEvent)
    (h : ∀ ev ∈ l, ∃ i id2, ev = RunEvent.saveExec i id2) :
    l.filter (isDeleteFor e) = [] := by
  rw [List.filter_eq_nil_iff]
  intro ev hev
  rcases h ev hev with ⟨i, id2, rfl⟩
  simp [isDeleteFor]

theorem filter_fetch_of_deletes (oi : Option Nat) (es : List String) :
    (es.map (RunEvent.deleteExec oi)).filter isFetchEvent = [] := by
  rw [List.filter_eq_nil_iff]
  intro ev hev
  rcases List.mem_map.mp hev with ⟨x, _, rfl⟩
  simp [isFetchEvent]

theorem filter_eq_singleton_of_nodup (d : List String) (e : String) (hd : d.Nodup)
    (he : e ∈ d) : d.filter (fun x => x = e) = [e] := by
  induction d with
  | nil => cases he
  | cons a rest ih =>
    rw [List.filter_cons]
    by_cases hae : a = e
    · subst hae
      have hrest : rest.filter (fun x => decide (x = a)) = [] := by
        rw [List.filter_eq_nil_iff]
        intro x hx
        have hne : x ≠ a := by
          intro hxa
          exact (List.nodup_cons.mp hd).1 (hxa ▸ hx)
        simpa using hne
      simp [hrest]
    · have hmem : e ∈ rest := by
        rcases List.mem_cons.mp he with h1 | h1
        · exact absurd h1.symm hae
        · exact h1
      rw [if_neg (by simpa using hae)]
      exact ih (List.nodup_cons.mp hd).2 hmem

theorem filter_delete_of_deletes (e : String) (oi : Option Nat) (es : List String) :
    (es.map (RunEvent.deleteExec oi)).filter (isDeleteFor e) =
      (es.filter (fun x => x = e)).map (RunEvent.deleteExec oi) := by
  rw [List.filter_map]
  have hfun : (isDeleteFor e ∘ RunEvent.deleteExec oi) = fun x => decide (x = e) := by
    funext x
    simp [isDeleteFor, Function.comp]
  rw [hfun]

theorem processBatches_deletedList_nil (f : String → ResponseItem) (S A bookId : String)
    (pairs : List (Nat × List String)) :
    ∀ st : BatchSt, st.deletedList = [] →
      (processBatches f S A bookId pairs st).deletedList = [] := by
  induction pairs with
  | nil => intro st h; exact h
  | cons ic rest ih =>
    intro st h
    show (processBatches f S A bookId rest (processBatch f S A bookId ic.1 st ic.2)).deletedList = []
    exact ih _ (processBatch_deletedList f S A bookId ic.1 st ic.2)

theorem processBatches_cons (f : String → ResponseItem) (S A bookId : String)
    (ic : Nat × List String) (rest : List (Nat × List String)) (st : BatchSt) :
    processBatches f S A bookId (ic :: rest) st =
      processBatches f S A bookId rest (processBatch f S A bookId ic.1 st ic.2) := rfl

theorem processBatches_delete_filter_nil (f : String → ResponseItem) (S A bookId : String)
    (e : String) (pairs : List (Nat × List String)) :
    ∀ st : BatchSt, st.deletedList = [] →
      ((processBatches f S A bookId pairs st).events).filter (isDeleteFor e) =
        st.events.filter (isDeleteFor e) := by
  induction pairs with
  | nil => intro st _; rfl
  | cons ic rest ih =>
    intro st h
    rw [processBatches_cons]
    rw [ih _ (processBatch_deletedList f S A bookId ic.1 st ic.2)]
    rcases processBatch_events f S A bookId ic.1 st ic.2 with ⟨l, hl, hall⟩
    rw [hl, if_pos h]
    rw [List.filter_append, List.filter_append, List.filter_append]
    rw [filter_delete_of_saves e l hall]
    simp [isDeleteFor]

theorem processBatches_fetch_filter (f : String → ResponseItem) (S A bookId : String)
    (pairs : List (Nat × List String)) :
    ∀ st : BatchSt,
      ((processBatches f S A bookId pairs st).events).filter isFetchEvent =
        (st.events.filter isFetchEvent) ++
          pairs.map (fun ic => RunEvent.fetchExec ic.1 ic.2) := by
  induction pairs with
  | nil => intro st; simp [processBatches]
  | cons ic rest ih =>
    intro st
    rw [processBatches_cons, ih]
    rcases processBatch_events f S A bookId ic.1 st ic.2 with ⟨l, hl, hall⟩
    rw [hl]
    rw [List.filter_append, List.filter_append, List.filter_append]
    rw [filter_fetch_of_saves l hall]
    by_cases h : st.deletedList = []
    · rw [if_pos h]
      simp [isFetchEvent]
    · rw [if_neg h]
      rw [filter_fetch_of_deletes]
      simp [isFetchEvent]

theorem runForAddressBook_eq (f : String → ResponseItem) (S A bookId : String)
    (remote : List (String × String)) (contacts0 : List Contact) :
    runForAddressBook f S A bookId remote contacts0 =
      (finalSweep bookId
        (processBatches f S A bookId
          (chunksOfVector (computeNeeded remote (localEtags contacts0 bookId)) 90).enum
          { contacts := contacts0,
            deletedList := computeDeleted remote (localEtags contacts0 bookId),
            events := [] }),
       remote.length) := rfl

theorem finalSweep_fetch_filter (bookId : String) (st : BatchSt) :
    ((finalSweep bookId st).events).filter isFetchEvent = st.events.filter isFetchEvent := by
  by_cases h : st.deletedList = []
  · rw [finalSweep_of_nil bookId st h]
  · rw [finalSweep_of_ne bookId st h]
    dsimp only
    rw [List.filter_append, filter_fetch_of_deletes]
    simp

/-- C3: every etag placed in the `deleted` set has its deletion statement
executed exactly once in the whole run: inside the first batch (index 0)
when at least one batch exists, and otherwise exactly once in the final
deletion pass, so stale rows are swept even when `needed` is empty. -/
theorem stale_sweep_once (f : String → ResponseItem) (S A bookId : String)
    (remote : List (String × String)) (contacts0 : List Contact) (e : String)
    (he : e ∈ computeDeleted remote (localEtags contacts0 bookId)) :
    ((runForAddressBook f S A bookId remote contacts0).1.events).filter (isDeleteFor e) =
      [RunEvent.deleteExec
        (if computeNeeded remote (localEtags contacts0 bookId) = [] then none else some 0)
        e] := by
  rw [runForAddressBook_eq]
  have hnodupL : (localEtags contacts0 bookId).Nodup := List.nodup_dedup _
  have hnodup : (computeDeleted remote (localEtags contacts0 bookId)).Nodup :=
    hnodupL.filter _
  have hdelne : computeDeleted remote (localEtags contacts0 bookId) ≠ [] :=
    List.ne_nil_of_mem he
  by_cases hn : computeNeeded remote (localEtags contacts0 bookId) = []
  · rw [if_pos hn, hn, chunksOfVector_nil]
    rw [show (([] : List (List String)).enum) = [] from rfl]
    rw [show processBatches f S A bookId []
        { contacts := contacts0,
          deletedList := computeDeleted remote (localEtags contacts0 bookId),
          events := [] } =
        { contacts := contacts0,
          deletedList := computeDeleted remote (localEtags contacts0 bookId),
          events := [] } from rfl]
    rw [finalSweep_of_ne bookId _ hdelne]
    dsimp only
    rw [List.nil_append, filter_delete_of_deletes,
      filter_eq_singleton_of_nodup _ e hnodup he]
    rfl
  · rw [if_neg hn]
    cases hch : chunksOfVector (computeNeeded remote (localEtags contacts0 bookId)) 90 with
    | nil =>
      exact absurd ((chunksOfVector_eq_nil_iff
        (computeNeeded remote (localEtags contacts0 bookId)) 89).mp hch) hn
    | cons c0 cs =>
      rw [show ((c0 :: cs).enum) = (0, c0) :: List.enumFrom 1 cs from rfl]
      rw [processBatches_cons]
      have hb0 := processBatch_deletedList f S A bookId 0
        { contacts := contacts0,
          deletedList := computeDeleted remote (localEtags contacts0 bookId),
          events := [] } c0
      rw [finalSweep_of_nil bookId _
        (processBatches_deletedList_nil f S A bookId (List.enumFrom 1 cs) _ hb0)]
      rw [processBatches_delete_filter_nil f S A bookId e (List.enumFrom 1 cs) _ hb0]
      rcases processBatch_events f S A bookId 0
        { contacts := contacts0,
          deletedList := computeDeleted remote (localEtags contacts0 bookId),
          events := [] } c0 with ⟨l, hl, hall⟩
      rw [hl]
      dsimp only
      rw [if_neg hdelne]
      rw [List.filter_append, List.filter_append, List.filter_append]
      rw [filter_delete_of_saves e l hall, filter_delete_of_deletes,
        filter_eq_singleton_of_nodup _ e hnodup he]
      simp [isDeleteFor]

theorem stale_sweep_once_witness :
    ("e1" : String) ∈ computeDeleted [] (localEtags [exampleContactHidden] ("b")) ∧
    ((runForAddressBook (fun _ => exampleItemGood) ("s") ("a") ("b") []
        [exampleContactHidden]).1.events).filter (isDeleteFor ("e1")) =
      [RunEvent.deleteExec
        (if computeNeeded [] (localEtags [exampleContactHidden] ("b")) = [] then none
         else some 0) ("e1")] :=
  ⟨by decide,
   stale_sweep_once (fun _ => exampleItemGood) ("s") ("a") ("b") [] [exampleContactHidden]
     ("e1") (by decide)⟩

/-- C4: for a `needed` list of size n the run issues exactly ceil(n/90)
content-fetch (multiget) requests, and no request embeds more than 90 href
references. -/
theorem batch_cap (f : String → ResponseItem) (S A bookId : String)
    (remote : List (String × String)) (contacts0 : List Contact) :
    (((runForAddressBook f S A bookId remote contacts0).1.events).filter
        isFetchEvent).length =
      ((computeNeeded remote (localEtags contacts0 bookId)).length + 89) / 90 ∧
    (∀ ev ∈ (runForAddressBook f S A bookId remote contacts0).1.events,
      ∀ i hs, ev = RunEvent.fetchExec i hs → hs.length ≤ 90) := by
  rw [runForAddressBook_eq]
  constructor
  · rw [finalSweep_fetch_filter, processBatches_fetch_filter]
    dsimp only
    rw [show (([] : List RunEvent).filter isFetchEvent) = [] from rfl]
    rw [List.nil_append, List.length_map, List.enum_length]
    exact chunksOfVector_length_90 _
  · intro ev hev i hs hevEq
    have hfetch : isFetchEvent ev = true := by
      rw [hevEq]
      rfl
    have hmem : ev ∈ ((finalSweep bookId
        (processBatches f S A bookId
          (chunksOfVector (computeNeeded remote (localEtags contacts0 bookId)) 90).enum
          { contacts := contacts0,
            deletedList := computeDeleted remote (localEtags contacts0 bookId),
            events := [] })).events).filter isFetchEvent :=
      List.mem_filter.mpr ⟨hev, hfetch⟩
    rw [finalSweep_fetch_filter, processBatches_fetch_filter] at hmem
    dsimp only at hmem
    rw [show (([] : List RunEvent).filter isFetchEvent) = [] from rfl,
      List.nil_append] at hmem
    rcases List.mem_map.mp hmem with ⟨ic, hic, hiceq⟩
    have hchunk : ic.2 ∈ chunksOfVector (computeNeeded remote (localEtags contacts0 bookId)) 90 :=
      List.snd_mem_of_mem_enum hic
    have hlen := chunksOfVector_chunk_le
      (computeNeeded remote (localEtags contacts0 bookId)) 89 ic.2 hchunk
    have hs2 : hs = ic.2 := by
      rw [hevEq] at hiceq
      cases hiceq
      rfl
    rw [hs2]
    exact hlen

theorem batch_cap_witness :
    RunEvent.fetchExec 0 ["h1"] ∈
      (runForAddressBook (fun _ => exampleItemGood) ("s") ("a") ("b") [("e1", "h1")]
        []).1.events ∧
    (["h1"] : List String).length ≤ 90 :=
  ⟨by decide,
   (batch_cap (fun _ => exampleItemGood) ("s") ("a") ("b") [("e1", "h1")] []).2
     (RunEvent.fetchExec 0 ["h1"]) (by decide) 0 ["h1"] rfl⟩

theorem runBatchesExc_error_src (env : Env) (S A bookId : String)
    (pairs : List (Nat × List String)) :
    ∀ (st : BatchSt) (e : String) (st2 : BatchSt),
      runBatchesExc env S A bookId pairs st = Except.error (e, st2) →
      (∃ i, env.fetchBatchErr i = some e) ∧
      (∃ k, k ≤ pairs.length ∧
        st2 = processBatches env.fetchItem S A bookId (pairs.take k) st) := by
  induction pairs with
  | nil =>
    intro st e st2 h
    cases h
  | cons ic rest ih =>
    intro st e st2 h
    rw [runBatchesExc] at h
    cases hf : env.fetchBatchErr ic.1 with
    | some err =>
      rw [hf] at h
      cases h
      refine ⟨⟨ic.1, hf⟩, 0, by omega, ?_⟩
      rfl
    | none =>
      rw [hf] at h
      rcases ih _ e st2 h with ⟨hex, k, hk, hst⟩
      refine ⟨hex, k + 1, by simpa using Nat.succ_le_succ hk, ?_⟩
      rw [List.take_succ_cons, processBatches_cons]
      exact hst

/-- C7: the public run never raises past its boundary: provided every
injected failure carries a non-empty message (as `e.what()` does for the
exceptions thrown here), every execution returns either success=true with
an empty error and the remote listing's size as the reported count, or
success=false with a non-empty error string; and on failure the returned
contact table is either the untouched initial one (pre-listing failure) or
the one produced by the batches fully committed before the failing
content-fetch — committed batches remain applied. -/
theorem run_no_throw (env : Env) (S N A bookId : String) (contacts0 : List Contact)
    (hres : match env.resolve with
            | Except.error e => e ≠ ""
            | Except.ok _ => True)
    (hlist : match env.listing with
             | Except.error e => e ≠ ""
             | Except.ok _ => True)
    (hbatch : ∀ i, match env.fetchBatchErr i with
                   | some e => e ≠ ""
                   | none => True) :
    ((runExternal env S N A bookId contacts0).1.success = true ∧
     (runExternal env S N A bookId contacts0).1.error = "" ∧
     (∃ remote, env.listing = Except.ok remote ∧
       (runExternal env S N A bookId contacts0).1.contactCount = remote.length)) ∨
    ((runExternal env S N A bookId contacts0).1.success = false ∧
     (runExternal env S N A bookId contacts0).1.error ≠ "" ∧
     ((runExternal env S N A bookId contacts0).2 = contacts0 ∨
      (∃ remote k, env.listing = Except.ok remote ∧
        (runExternal env S N A bookId contacts0).2 =
          (processBatches env.fetchItem S A bookId
            ((chunksOfVector (computeNeeded remote (localEtags contacts0 bookId))
              90).enum.take k)
            { contacts := contacts0,
              deletedList := computeDeleted remote (localEtags contacts0 bookId),
              events := [] }).contacts))) := by
  cases hres2 : env.resolve with
  | error e =>
    have heq : runExternal env S N A bookId contacts0 =
        ({ sourceId := S, sourceName := N, contactCount := 0,
           success := false, error := e }, contacts0) := by
      unfold runExternal
      rw [hres2]
    rw [hres2] at hres
    rw [heq]
    exact Or.inr ⟨rfl, hres, Or.inl rfl⟩
  | ok u =>
    cases u
    cases hl : env.listing with
    | error e =>
      have heq : runExternal env S N A bookId contacts0 =
          ({ sourceId := S, sourceName := N, contactCount := 0,
             success := false, error := e }, contacts0) := by
        unfold runExternal
        rw [hres2, hl]
      rw [hl] at hlist
      rw [heq]
      exact Or.inr ⟨rfl, hlist, Or.inl rfl⟩
    | ok remote =>
      cases hrb : runBatchesExc env S A bookId
          (chunksOfVector (computeNeeded remote (localEtags contacts0 bookId)) 90).enum
          { contacts := contacts0,
            deletedList := computeDeleted remote (localEtags contacts0 bookId),
            events := [] } with
      | ok st =>
        have heq : runExternal env S N A bookId contacts0 =
            ({ sourceId := S, sourceName := N, contactCount := remote.length,
               success := true, error := "" }, (finalSweep bookId st).contacts) := by
          unfold runExternal
          rw [hres2, hl]
          dsimp only
          rw [hrb]
        rw [heq]
        exact Or.inl ⟨rfl, rfl, remote, rfl, rfl⟩
      | error p =>
        rcases p with ⟨e, st2⟩
        have heq : runExternal env S N A bookId contacts0 =
            ({ sourceId := S, sourceName := N, contactCount := 0,
               success := false, error := e }, st2.contacts) := by
          unfold runExternal
          rw [hres2, hl]
          dsimp only
          rw [hrb]
        rcases runBatchesExc_error_src env S A bookId _ _ e st2 hrb with
          ⟨⟨i, hi⟩, k, _, hst⟩
        have hene : e ≠ "" := by
          have hb := hbatch i
          rw [hi] at hb
          exact hb
        rw [heq]
        refine Or.inr ⟨rfl, hene, Or.inr ⟨remote, k, rfl, ?_⟩⟩
        rw [hst]

theorem run_no_throw_witness :
    (match exampleEnvListingFail.listing with
     | Except.error e => e ≠ ""
     | Except.ok _ => True) ∧
    (((runExternal exampleEnvListingFail ("s") ("n") ("a") ("b") []).1.success = true ∧
      (runExternal exampleEnvListingFail ("s") ("n") ("a") ("b") []).1.error = "" ∧
      (∃ remote, exampleEnvListingFail.listing = Except.ok remote ∧
        (runExternal exampleEnvListingFail ("s") ("n") ("a") ("b") []).1.contactCount =
          remote.length)) ∨
     ((runExternal exampleEnvListingFail ("s") ("n") ("a") ("b") []).1.success = false ∧
      (runExternal exampleEnvListingFail ("s") ("n") ("a") ("b") []).1.error ≠ "" ∧
      ((runExternal exampleEnvListingFail ("s") ("n") ("a") ("b") []).2 = [] ∨
       (∃ remote k, exampleEnvListingFail.listing = Except.ok remote ∧
         (runExternal exampleEnvListingFail ("s") ("n") ("a") ("b") []).2 =
           (processBatches exampleEnvListingFail.fetchItem ("s") ("a") ("b")
             ((chunksOfVector (computeNeeded remote (localEtags [] ("b"))) 90).enum.take k)
             { contacts := [],
               deletedList := computeDeleted remote (localEtags [] ("b")),
               events := [] }).contacts)))) :=
  ⟨by show ("listing failed" : String) ≠ ""; decide,
   run_no_throw exampleEnvListingFail ("s") ("n") ("a") ("b") [] trivial
     (by show ("listing failed" : String) ≠ ""; decide) (fun i => trivial)⟩

/-!  Store-level lemmas for the convergence argument. -/

theorem mem_localEtags (cs : List Contact) (bookId : String) (e : String) :
    e ∈ localEtags cs bookId ↔ ∃ c ∈ cs, c.bookId = bookId ∧ c.etag = e := by
  unfold localEtags
  rw [List.mem_dedup]
  constructor
  · intro h
    rcases List.mem_map.mp h with ⟨c, hc, he⟩
    rcases List.mem_filter.mp hc with ⟨hc2, hb⟩
    exact ⟨c, hc2, of_decide_eq_true hb, he⟩
  · rintro ⟨c, hc, hb, he⟩
    exact List.mem_map.mpr ⟨c, List.mem_filter.mpr ⟨hc, decide_eq_true hb⟩, he⟩

theorem mem_deletePass (bookId : String) (es : List String) :
    ∀ (cs : List Contact) (c : Contact),
      c ∈ deletePass cs bookId es ↔ c ∈ cs ∧ ¬ (c.bookId = bookId ∧ c.etag ∈ es) := by
  induction es with
  | nil =>
    intro cs c
    simp [deletePass]
  | cons e rest ih =>
    intro cs c
    show c ∈ deletePass (cs.filter _) bookId rest ↔ _
    rw [ih]
    rw [List.mem_filter]
    constructor
    · rintro ⟨⟨hc, hf⟩, hrest⟩
      refine ⟨hc, ?_⟩
      rintro ⟨hb, he⟩
      rcases List.mem_cons.mp he with rfl | hmem
      · have := of_decide_eq_true hf
        exact this ⟨hb, rfl⟩
      · exact hrest ⟨hb, hmem⟩
    · rintro ⟨hc, hno⟩
      refine ⟨⟨hc, decide_eq_true ?_⟩, ?_⟩
      · rintro ⟨hb, he⟩
        exact hno ⟨hb, he ▸ List.mem_cons_self e rest⟩
      · rintro ⟨hb, he⟩
        exact hno ⟨hb, List.mem_cons_of_mem e he⟩

theorem mem_saveContact_of_ne (cs : List Contact) (r c : Contact) (hc : c ∈ cs)
    (hne : c.id ≠ r.id) : c ∈ saveContact cs r := by
  unfold saveContact
  by_cases h : cs.any (fun x => x.id = r.id)
  · rw [if_pos h]
    have : (if c.id = r.id then r else c) = c := if_neg hne
    rw [← this]
    exact List.mem_map_of_mem _ hc
  · rw [if_neg h]
    exact List.mem_append_left _ hc

theorem self_mem_saveContact (cs : List Contact) (r : Contact) : r ∈ saveContact cs r := by
  unfold saveContact
  by_cases h : cs.any (fun x => x.id = r.id)
  · rw [if_pos h]
    rcases List.any_eq_true.mp h with ⟨x, hx, hxid⟩
    exact List.mem_map.mpr ⟨x, hx, if_pos (of_decide_eq_true hxid)⟩
  · rw [if_neg h]
    exact List.mem_append_right _ (List.mem_singleton.mpr rfl)

theorem mem_saveContact (cs : List Contact) (r c : Contact) (hc : c ∈ saveContact cs r) :
    c = r ∨ c ∈ cs := by
  unfold saveContact at hc
  by_cases h : cs.any (fun x => x.id = r.id)
  · rw [if_pos h] at hc
    rcases List.mem_map.mp hc with ⟨x, hx, hxeq⟩
    by_cases hxid : x.id = r.id
    · rw [if_pos hxid] at hxeq
      exact Or.inl hxeq.symm
    · rw [if_neg hxid] at hxeq
      exact Or.inr (hxeq ▸ hx)
  · rw [if_neg h] at hc
    rcases List.mem_append.mp hc with h2 | h2
    · exact Or.inr h2
    · exact Or.inl (List.mem_singleton.mp h2)

theorem appliedRow_id (bookId : String) (g : Bool) (r : Contact) :
    (appliedRow bookId g r).id = r.id := rfl

theorem appliedRow_etag (bookId : String) (g : Bool) (r : Contact) :
    (appliedRow bookId g r).etag = r.etag := rfl

theorem appliedRow_bookId (bookId : String) (g : Bool) (r : Contact) :
    (appliedRow bookId g r).bookId = bookId := rfl

theorem ingest_ids_indep (cs : List Contact) (S A : String) (item : ResponseItem) :
    ((ingestAddressDataNode cs S A item).1).map (fun r => r.id) = itemRowIds S A item := by
  by_cases hvc : item.vcardString = ""
  · simp [ingestAddressDataNode, itemRowIds, hvc]
  · by_cases hinc : item.parsed.incomplete = true
    · simp [ingestAddressDataNode, itemRowIds, hvc, hinc]
    · have hinc2 : item.parsed.incomplete = false := by simpa using hinc
      rw [ingest_ids cs S A item hvc hinc2]
      unfold itemRowIds
      rw [ingest_ids [] S A item hvc hinc2]

theorem ingest_row_props (cs : List Contact) (S A : String) (item : ResponseItem) :
    ∀ r ∈ (ingestAddressDataNode cs S A item).1,
      r.etag = item.etag ∧ r.id ∈ itemRowIds S A item := by
  intro r hr
  constructor
  · by_cases hvc : item.vcardString = ""
    · rw [show (ingestAddressDataNode cs S A item).1 = [] by
        simp [ingestAddressDataNode, hvc]] at hr
      cases hr
    · by_cases hinc : item.parsed.incomplete = true
      · rw [show (ingestAddressDataNode cs S A item).1 = [] by
          simp [ingestAddressDataNode, hvc, hinc]] at hr
        cases hr
      · have hinc2 : item.parsed.incomplete = false := by simpa using hinc
        rw [ingest_rows_of_guards cs S A item hvc hinc2] at hr
        rcases List.mem_filterMap.mp hr with ⟨ie, _, heq⟩
        unfold ingestRow at heq
        by_cases he : ie.2 = ""
        · rw [if_pos he] at heq
          cases heq
        · rw [if_neg he] at heq
          rw [← Option.some.inj heq, fanOutRow_etag]
  · rw [← ingest_ids_indep cs S A item]
    exact List.mem_map_of_mem _ hr

theorem ingest_rows_ne_nil (cs : List Contact) (S A : String) (item : ResponseItem)
    (hing : Ingestible item) : (ingestAddressDataNode cs S A item).1 ≠ [] := by
  rcases hing with ⟨hvc, hinc, em, hmem, hem⟩
  rw [ingest_rows_of_guards cs S A item hvc hinc]
  intro hnil
  rw [List.filterMap_eq_nil_iff] at hnil
  have hmem2 : em ∈ item.parsed.emails.enum.map Prod.snd := by
    rw [List.enum_map_snd]
    exact hmem
  rcases List.mem_map.mp hmem2 with ⟨ie, hie, hsnd⟩
  have hnone := hnil ie hie
  unfold ingestRow at hnone
  rw [if_neg (by rw [hsnd]; exact hem)] at hnone
  cases hnone

theorem CoversP_mono (f : String → ResponseItem) (S A bookId : String) (cs : List Contact)
    (P Q : String → Prop) (hPQ : ∀ h, Q h → P h) (hc : CoversP f S A bookId cs P) :
    CoversP f S A bookId cs Q :=
  fun h2 hh2 => hc h2 (hPQ h2 hh2)

theorem needed_mem_keys (remote : List (String × String)) (localE : List String)
    (h2 : String) (hmem : h2 ∈ computeNeeded remote localE) :
    ∃ p ∈ remote, p.2 = h2 ∧ p.1 ∉ localE := by
  rcases (mem_computeNeeded remote localE h2).mp hmem with ⟨e, he, hne⟩
  exact ⟨(e, h2), he, rfl, hne⟩

theorem save_step (fetchItem : String → ResponseItem) (S A bookId : String)
    (remote : List (String × String)) (contacts0 : List Contact)
    (H : SyncHyps fetchItem S A bookId remote contacts0)
    (P : String → Prop)
    (hP : ∀ h2, P h2 → h2 ∈ computeNeeded remote (localEtags contacts0 bookId))
    (hcur : String)
    (hcurN : hcur ∈ computeNeeded remote (localEtags contacts0 bookId))
    (g : Bool) (r : Contact)
    (hretag : r.etag = (fetchItem hcur).etag)
    (hrid : r.id ∈ itemRowIds S A (fetchItem hcur))
    (cs : List Contact)
    (hinv : StoreInv bookId (remote.map Prod.fst) contacts0 cs)
    (hcov : CoversP fetchItem S A bookId cs P) :
    StoreInv bookId (remote.map Prod.fst) contacts0
      (saveContact cs (appliedRow bookId g r)) ∧
    CoversP fetchItem S A bookId (saveContact cs (appliedRow bookId g r))
      (fun h2 => P h2 ∨ h2 = hcur) := by
  rcases needed_mem_keys remote _ hcur hcurN with ⟨p, hp, hp2, _⟩
  have hkey : (appliedRow bookId g r).etag ∈ remote.map Prod.fst := by
    rw [appliedRow_etag, hretag, ← hp2, H.hfetch p hp]
    exact List.mem_map.mpr ⟨p, hp, rfl⟩
  constructor
  · constructor
    · intro c hc hb
      rcases mem_saveContact cs _ c hc with rfl | hold
      · exact hkey
      · exact hinv.1 c hold hb
    · intro c hc0 hb hk
      have hcs : c ∈ cs := hinv.2 c hc0 hb hk
      have hne : c.id ≠ (appliedRow bookId g r).id := by
        rw [appliedRow_id]
        intro heq
        have := H.hdisj2 p hp c hc0 hb hk
        rw [hp2] at this
        exact this (heq ▸ hrid)
      exact mem_saveContact_of_ne cs _ c hcs hne
  · intro h2 hh2
    have hcase : h2 = hcur ∨ (P h2 ∧ h2 ≠ hcur) := by
      rcases hh2 with hp2c | rfl
      · by_cases he : h2 = hcur
        · exact Or.inl he
        · exact Or.inr ⟨hp2c, he⟩
      · exact Or.inl rfl
    rcases hcase with rfl | ⟨hPh, hne⟩
    · refine ⟨appliedRow bookId g r, self_mem_saveContact cs _, appliedRow_bookId _ _ _,
        ?_, ?_⟩
      · rw [appliedRow_etag, hretag]
      · rw [appliedRow_id]
        exact hrid
    · rcases hcov h2 hPh with ⟨c, hccs, hcb, hce, hcid⟩
      by_cases hid : c.id = (appliedRow bookId g r).id
      · exfalso
        rcases needed_mem_keys remote _ h2 (hP h2 hPh) with ⟨q, hq, hq2, _⟩
        have hpq : p.2 ≠ q.2 := by
          rw [hp2, hq2]
          intro heq
          exact hne heq.symm
        have hdisj := H.hdisj1 p hp q hq hpq
        rw [hp2, hq2] at hdisj
        rw [appliedRow_id] at hid
        rw [hid] at hcid
        exact hdisj r.id hrid hcid
      · exact ⟨c, mem_saveContact_of_ne cs _ c hccs hid, hcb, hce, hcid⟩

theorem saveRows_inv_weak (fetchItem : String → ResponseItem) (S A bookId : String)
    (remote : List (String × String)) (contacts0 : List Contact)
    (H : SyncHyps fetchItem S A bookId remote contacts0)
    (P : String → Prop)
    (hP : ∀ h2, P h2 → h2 ∈ computeNeeded remote (localEtags contacts0 bookId))
    (hcur : String)
    (hcurN : hcur ∈ computeNeeded remote (localEtags contacts0 bookId))
    (g : Bool) (idx : Nat) :
    ∀ (rows : List Contact) (st : BatchSt),
      (∀ r ∈ rows, r.etag = (fetchItem hcur).etag ∧
        r.id ∈ itemRowIds S A (fetchItem hcur)) →
      StoreInv bookId (remote.map Prod.fst) contacts0 st.contacts →
      CoversP fetchItem S A bookId st.contacts P →
      StoreInv bookId (remote.map Prod.fst) contacts0
        (saveRows bookId g idx st rows).contacts ∧
      CoversP fetchItem S A bookId (saveRows bookId g idx st rows).contacts P := by
  intro rows
  induction rows with
  | nil =>
    intro st _ hinv hcov
    exact ⟨hinv, hcov⟩
  | cons r rest ih =>
    intro st hprops hinv hcov
    rw [saveRows_cons]
    have hr := hprops r (List.mem_cons_self r rest)
    have hstep := save_step fetchItem S A bookId remote contacts0 H P hP hcur hcurN g r
      hr.1 hr.2 st.contacts hinv hcov
    exact ih _ (fun r2 h2 => hprops r2 (List.mem_cons_of_mem r h2)) hstep.1
      (CoversP_mono fetchItem S A bookId _ _ _ (fun h2 hh2 => Or.inl hh2) hstep.2)

theorem item_step_inv (fetchItem : String → ResponseItem) (S A bookId : String)
    (remote : List (String × String)) (contacts0 : List Contact)
    (H : SyncHyps fetchItem S A bookId remote contacts0)
    (P : String → Prop)
    (hP : ∀ h2, P h2 → h2 ∈ computeNeeded remote (localEtags contacts0 bookId))
    (hcur : String)
    (hcurN : hcur ∈ computeNeeded remote (localEtags contacts0 bookId))
    (idx : Nat) (st : BatchSt)
    (hinv : StoreInv bookId (remote.map Prod.fst) contacts0 st.contacts)
    (hcov : CoversP fetchItem S A bookId st.contacts P) :
    StoreInv bookId (remote.map Prod.fst) contacts0
      (processResponseItem S A bookId idx st (fetchItem hcur)).contacts ∧
    CoversP fetchItem S A bookId
      (processResponseItem S A bookId idx st (fetchItem hcur)).contacts
      (fun h2 => P h2 ∨ h2 = hcur) := by
  have hingest : Ingestible (fetchItem hcur) := by
    rcases needed_mem_keys remote _ hcur hcurN with ⟨p, hp, hp2, _⟩
    rw [← hp2]
    exact H.hing p hp
  have hne := ingest_rows_ne_nil st.contacts S A (fetchItem hcur) hingest
  have hprops := ingest_row_props st.contacts S A (fetchItem hcur)
  show StoreInv bookId (remote.map Prod.fst) contacts0
      (saveRows bookId (ingestAddressDataNode st.contacts S A (fetchItem hcur)).2 idx st
        (ingestAddressDataNode st.contacts S A (fetchItem hcur)).1).contacts ∧
    CoversP fetchItem S A bookId
      (saveRows bookId (ingestAddressDataNode st.contacts S A (fetchItem hcur)).2 idx st
        (ingestAddressDataNode st.contacts S A (fetchItem hcur)).1).contacts
      (fun h2 => P h2 ∨ h2 = hcur)
  cases hrows : (ingestAddressDataNode st.contacts S A (fetchItem hcur)).1 with
  | nil => exact absurd hrows hne
  | cons r rest =>
    rw [saveRows_cons]
    have hr := hprops r (by rw [hrows]; exact List.mem_cons_self r rest)
    have hstep := save_step fetchItem S A bookId remote contacts0 H P hP hcur hcurN
      (ingestAddressDataNode st.contacts S A (fetchItem hcur)).2 r hr.1 hr.2
      st.contacts hinv hcov
    exact saveRows_inv_weak fetchItem S A bookId remote contacts0 H
      (fun h2 => P h2 ∨ h2 = hcur)
      (fun h2 hh2 => hh2.elim (hP h2) (fun he => he ▸ hcurN))
      hcur hcurN (ingestAddressDataNode st.contacts S A (fetchItem hcur)).2 idx rest
      { st with
        contacts := saveContact st.contacts
          (appliedRow bookId (ingestAddressDataNode st.contacts S A (fetchItem hcur)).2 r),
        events := st.events ++ [RunEvent.saveExec idx
          (appliedRow bookId (ingestAddressDataNode st.contacts S A (fetchItem hcur)).2
            r).id] }
      (fun r2 h2 => hprops r2 (by rw [hrows]; exact List.mem_cons_of_mem r h2))
      hstep.1 hstep.2

theorem items_fold_inv (fetchItem : String → ResponseItem) (S A bookId : String)
    (remote : List (String × String)) (contacts0 : List Contact)
    (H : SyncHyps fetchItem S A bookId remote contacts0) (idx : Nat) :
    ∀ (chunk : List String) (P : String → Prop),
      (∀ h2, P h2 → h2 ∈ computeNeeded remote (localEtags contacts0 bookId)) →
      (∀ h2 ∈ chunk, h2 ∈ computeNeeded remote (localEtags contacts0 bookId)) →
      ∀ st : BatchSt,
        StoreInv bookId (remote.map Prod.fst) contacts0 st.contacts →
        CoversP fetchItem S A bookId st.contacts P →
        StoreInv bookId (remote.map Prod.fst) contacts0
          (processItems S A bookId idx st (chunk.map fetchItem)).contacts ∧
        CoversP fetchItem S A bookId
          (processItems S A bookId idx st (chunk.map fetchItem)).contacts
          (fun h2 => P h2 ∨ h2 ∈ chunk) := by
  intro chunk
  induction chunk with
  | nil =>
    intro P hP _ st hinv hcov
    refine ⟨hinv, CoversP_mono fetchItem S A bookId _ _ _ ?_ hcov⟩
    intro h2 hh2
    rcases hh2 with h | h
    · exact h
    · cases h
  | cons hc rest ih =>
    intro P hP hchunk st hinv hcov
    show StoreInv bookId (remote.map Prod.fst) contacts0
        (processItems S A bookId idx
          (processResponseItem S A bookId idx st (fetchItem hc)) (rest.map fetchItem)).contacts ∧ _
    have hstep := item_step_inv fetchItem S A bookId remote contacts0 H P hP hc
      (hchunk hc (List.mem_cons_self hc rest)) idx st hinv hcov
    have hrec := ih (fun h2 => P h2 ∨ h2 = hc)
      (fun h2 hh2 => hh2.elim (hP h2)
        (fun he => he ▸ hchunk hc (List.mem_cons_self hc rest)))
      (fun h2 h2m => hchunk h2 (List.mem_cons_of_mem hc h2m))
      (processResponseItem S A bookId idx st (fetchItem hc)) hstep.1 hstep.2
    refine ⟨hrec.1, CoversP_mono fetchItem S A bookId _ _ _ ?_ hrec.2⟩
    intro h2 hh2
    rcases hh2 with h | hmem
    · exact Or.inl (Or.inl h)
    · rcases List.mem_cons.mp hmem with rfl | hmem2
      · exact Or.inl (Or.inr rfl)
      · exact Or.inr hmem2

theorem batch_step_inv (fetchItem : String → ResponseItem) (S A bookId : String)
    (remote : List (String × String)) (contacts0 : List Contact)
    (H : SyncHyps fetchItem S A bookId remote contacts0)
    (P : String → Prop)
    (hP : ∀ h2, P h2 → h2 ∈ computeNeeded remote (localEtags contacts0 bookId))
    (idx : Nat) (chunk : List String)
    (hchunk : ∀ h2 ∈ chunk, h2 ∈ computeNeeded remote (localEtags contacts0 bookId))
    (st : BatchSt) (hdl : st.deletedList = [])
    (hinv : StoreInv bookId (remote.map Prod.fst) contacts0 st.contacts)
    (hcov : CoversP fetchItem S A bookId st.contacts P) :
    StoreInv bookId (remote.map Prod.fst) contacts0
      (processBatch fetchItem S A bookId idx st chunk).contacts ∧
    CoversP fetchItem S A bookId (processBatch fetchItem S A bookId idx st chunk).contacts
      (fun h2 => P h2 ∨ h2 ∈ chunk) := by
  rw [processBatch_eq]
  rw [applyDeletions_of_nil bookId (some idx)
    { st with events := st.events ++ [RunEvent.fetchExec idx chunk] } hdl]
  exact items_fold_inv fetchItem S A bookId remote contacts0 H idx chunk P hP hchunk
    { st with events := st.events ++ [RunEvent.fetchExec idx chunk] } hinv hcov

theorem batches_fold_inv (fetchItem : String → ResponseItem) (S A bookId : String)
    (remote : List (String × String)) (contacts0 : List Contact)
    (H : SyncHyps fetchItem S A bookId remote contacts0) :
    ∀ (pairs : List (Nat × List String)) (P : String → Prop),
      (∀ h2, P h2 → h2 ∈ computeNeeded remote (localEtags contacts0 bookId)) →
      (∀ ic ∈ pairs, ∀ h2 ∈ ic.2, h2 ∈ computeNeeded remote (localEtags contacts0 bookId)) →
      ∀ st : BatchSt, st.deletedList = [] →
        StoreInv bookId (remote.map Prod.fst) contacts0 st.contacts →
        CoversP fetchItem S A bookId st.contacts P →
        StoreInv bookId (remote.map Prod.fst) contacts0
          (processBatches fetchItem S A bookId pairs st).contacts ∧
        CoversP fetchItem S A bookId
          (processBatches fetchItem S A bookId pairs st).contacts
          (fun h2 => P h2 ∨ ∃ ic ∈ pairs, h2 ∈ ic.2) := by
  intro pairs
  induction pairs with
  | nil =>
    intro P hP _ st _ hinv hcov
    refine ⟨hinv, CoversP_mono fetchItem S A bookId _ _ _ ?_ hcov⟩
    intro h2 hh2
    rcases hh2 with h | ⟨ic, hic, _⟩
    · exact h
    · cases hic
  | cons ic rest ih =>
    intro P hP hpairs st hdl hinv hcov
    rw [processBatches_cons]
    have hstep := batch_step_inv fetchItem S A bookId remote contacts0 H P hP ic.1 ic.2
      (hpairs ic (List.mem_cons_self ic rest)) st hdl hinv hcov
    have hrec := ih (fun h2 => P h2 ∨ h2 ∈ ic.2)
      (fun h2 hh2 => hh2.elim (hP h2)
        (fun hm => hpairs ic (List.mem_cons_self ic rest) h2 hm))
      (fun ic2 hic2 => hpairs ic2 (List.mem_cons_of_mem ic hic2))
      (processBatch fetchItem S A bookId ic.1 st ic.2)
      (processBatch_deletedList fetchItem S A bookId ic.1 st ic.2) hstep.1 hstep.2
    refine ⟨hrec.1, CoversP_mono fetchItem S A bookId _ _ _ ?_ hrec.2⟩
    intro h2 hh2
    rcases hh2 with h | ⟨ic2, hic2, hm2⟩
    · exact Or.inl (Or.inl h)
    · rcases List.mem_cons.mp hic2 with rfl | hic3
      · exact Or.inl (Or.inr hm2)
      · exact Or.inr ⟨ic2, hic3, hm2⟩

theorem computeDeleted_nil_sub (remote : List (String × String)) (localE : List String)
    (h : computeDeleted remote localE = []) :
    ∀ e ∈ localE, e ∈ remote.map Prod.fst := by
  intro e he
  by_contra hk
  have hmem : e ∈ computeDeleted remote localE :=
    (mem_computeDeleted remote localE e).mpr ⟨he, hk⟩
  rw [h] at hmem
  cases hmem

theorem computeNeeded_nil_sub (remote : List (String × String)) (localE : List String)
    (h : computeNeeded remote localE = []) :
    ∀ p ∈ remote, p.1 ∈ localE := by
  rintro ⟨e, h2⟩ hp
  by_contra hl
  have hmem : h2 ∈ computeNeeded remote localE :=
    (mem_computeNeeded remote localE h2).mpr ⟨e, hp, hl⟩
  rw [h] at hmem
  cases hmem

theorem deletePass_inv (bookId : String) (remote : List (String × String))
    (contacts0 : List Contact) :
    StoreInv bookId (remote.map Prod.fst) contacts0
      (deletePass contacts0 bookId (computeDeleted remote (localEtags contacts0 bookId))) := by
  constructor
  · intro c hc hb
    rcases (mem_deletePass bookId _ contacts0 c).mp hc with ⟨hc0, hnd⟩
    have hinL : c.etag ∈ localEtags contacts0 bookId :=
      (mem_localEtags contacts0 bookId c.etag).mpr ⟨c, hc0, hb, rfl⟩
    by_contra hk
    exact hnd ⟨hb, (mem_computeDeleted remote _ c.etag).mpr ⟨hinL, hk⟩⟩
  · intro c hc0 hb hk
    refine (mem_deletePass bookId _ contacts0 c).mpr ⟨hc0, ?_⟩
    rintro ⟨_, hmem⟩
    exact ((mem_computeDeleted remote _ c.etag).mp hmem).2 hk

theorem batch0_inv (fetchItem : String → ResponseItem) (S A bookId : String)
    (remote : List (String × String)) (contacts0 : List Contact)
    (H : SyncHyps fetchItem S A bookId remote contacts0)
    (idx : Nat) (c0 : List String)
    (hchunk : ∀ h2 ∈ c0, h2 ∈ computeNeeded remote (localEtags contacts0 bookId)) :
    StoreInv bookId (remote.map Prod.fst) contacts0
      (processBatch fetchItem S A bookId idx
        { contacts := contacts0,
          deletedList := computeDeleted remote (localEtags contacts0 bookId),
          events := [] } c0).contacts ∧
    CoversP fetchItem S A bookId
      (processBatch fetchItem S A bookId idx
        { contacts := contacts0,
          deletedList := computeDeleted remote (localEtags contacts0 bookId),
          events := [] } c0).contacts
      (fun h2 => h2 ∈ c0) := by
  have hfalse : ∀ h2 : String, False → h2 ∈ computeNeeded remote (localEtags contacts0 bookId) :=
    fun h2 hf => absurd hf (by exact fun h => h)
  rw [processBatch_eq]
  have hmain : StoreInv bookId (remote.map Prod.fst) contacts0
      (applyDeletions bookId (some idx)
        { contacts := contacts0,
          deletedList := computeDeleted remote (localEtags contacts0 bookId),
          events := [RunEvent.fetchExec idx c0] }).contacts := by
    by_cases hdel : computeDeleted remote (localEtags contacts0 bookId) = []
    · rw [applyDeletions_of_nil bookId (some idx) _ hdel]
      constructor
      · intro c hc hb
        have hinL : c.etag ∈ localEtags contacts0 bookId :=
          (mem_localEtags contacts0 bookId c.etag).mpr ⟨c, hc, hb, rfl⟩
        exact computeDeleted_nil_sub remote _ hdel c.etag hinL
      · intro c hc0 _ _
        exact hc0
    · rw [applyDeletions_of_ne bookId (some idx) _ hdel]
      exact deletePass_inv bookId remote contacts0
  have hres := items_fold_inv fetchItem S A bookId remote contacts0 H idx c0
    (fun _ => False) (fun h2 hf => absurd hf (fun h => h)) hchunk
    (applyDeletions bookId (some idx)
      { contacts := contacts0,
        deletedList := computeDeleted remote (localEtags contacts0 bookId),
        events := [RunEvent.fetchExec idx c0] })
    hmain (fun h2 hf => absurd hf (fun h => h))
  refine ⟨hres.1, CoversP_mono fetchItem S A bookId _ _ _ ?_ hres.2⟩
  intro h2 hh2
  exact Or.inr hh2

theorem run_converges_core (fetchItem : String → ResponseItem) (S A bookId : String)
    (remote : List (String × String)) (contacts0 : List Contact)
    (H : SyncHyps fetchItem S A bookId remote contacts0) :
    ∀ e, e ∈ localEtags
        (runForAddressBook fetchItem S A bookId remote contacts0).1.contacts bookId ↔
      e ∈ remote.map Prod.fst := by
  rw [runForAddressBook_eq]
  by_cases hn : computeNeeded remote (localEtags contacts0 bookId) = []
  · rw [hn, chunksOfVector_nil]
    rw [show (([] : List (List String)).enum) = [] from rfl]
    rw [show processBatches fetchItem S A bookId []
        { contacts := contacts0,
          deletedList := computeDeleted remote (localEtags contacts0 bookId),
          events := [] } =
        { contacts := contacts0,
          deletedList := computeDeleted remote (localEtags contacts0 bookId),
          events := [] } from rfl]
    by_cases hdel : computeDeleted remote (localEtags contacts0 bookId) = []
    · rw [finalSweep_of_nil bookId _ hdel]
      dsimp only
      intro e
      constructor
      · intro he
        exact computeDeleted_nil_sub remote _ hdel e he
      · intro hk
        rcases List.mem_map.mp hk with ⟨p, hp, hpe⟩
        have hpl := computeNeeded_nil_sub remote _ hn p hp
        rw [hpe] at hpl
        exact hpl
    · rw [finalSweep_of_ne bookId _ hdel]
      dsimp only
      intro e
      constructor
      · intro he
        rcases (mem_localEtags _ bookId e).mp he with ⟨c, hc, hcb, hce⟩
        rcases (mem_deletePass bookId _ contacts0 c).mp hc with ⟨hc0, hnd⟩
        have hinL : c.etag ∈ localEtags contacts0 bookId :=
          (mem_localEtags contacts0 bookId c.etag).mpr ⟨c, hc0, hcb, rfl⟩
        rw [← hce]
        by_contra hk
        exact hnd ⟨hcb, (mem_computeDeleted remote _ c.etag).mpr ⟨hinL, hk⟩⟩
      · intro hk
        rcases List.mem_map.mp hk with ⟨p, hp, hpe⟩
        have hpl := computeNeeded_nil_sub remote _ hn p hp
        rw [hpe] at hpl
        rcases (mem_localEtags contacts0 bookId e).mp hpl with ⟨c, hc0, hcb, hce⟩
        refine (mem_localEtags _ bookId e).mpr
          ⟨c, (mem_deletePass bookId _ contacts0 c).mpr ⟨hc0, ?_⟩, hcb, hce⟩
        rintro ⟨_, hmem⟩
        rcases (mem_computeDeleted remote _ c.etag).mp hmem with ⟨_, hnk⟩
        rw [hce] at hnk
        exact hnk hk
  · cases hch : chunksOfVector (computeNeeded remote (localEtags contacts0 bookId)) 90 with
    | nil =>
      exact absurd ((chunksOfVector_eq_nil_iff
        (computeNeeded remote (localEtags contacts0 bookId)) 89).mp hch) hn
    | cons c0 cs =>
      rw [show ((c0 :: cs).enum) = (0, c0) :: List.enumFrom 1 cs from rfl,
        processBatches_cons]
      have hflat : (c0 :: cs).flatten = computeNeeded remote (localEtags contacts0 bookId) := by
        rw [← hch]
        exact chunksOfVector_flatten _ 89
      have hc0sub : ∀ h2 ∈ c0, h2 ∈ computeNeeded remote (localEtags contacts0 bookId) := by
        intro h2 hm
        rw [← hflat]
        exact List.mem_flatten.mpr ⟨c0, List.mem_cons_self c0 cs, hm⟩
      have hcssub : ∀ ic ∈ List.enumFrom 1 cs, ∀ h2 ∈ ic.2,
          h2 ∈ computeNeeded remote (localEtags contacts0 bookId) := by
        intro ic hic h2 hm
        have hcs : ic.2 ∈ cs := by
          have := List.mem_map_of_mem Prod.snd hic
          rw [List.enumFrom_map_snd] at this
          exact this
        rw [← hflat]
        exact List.mem_flatten.mpr ⟨ic.2, List.mem_cons_of_mem c0 hcs, hm⟩
      have hb0 := batch0_inv fetchItem S A bookId remote contacts0 H 0 c0 hc0sub
      have hrest := batches_fold_inv fetchItem S A bookId remote contacts0 H
        (List.enumFrom 1 cs) (fun h2 => h2 ∈ c0) hc0sub hcssub
        (processBatch fetchItem S A bookId 0
          { contacts := contacts0,
            deletedList := computeDeleted remote (localEtags contacts0 bookId),
            events := [] } c0)
        (processBatch_deletedList fetchItem S A bookId 0 _ c0) hb0.1 hb0.2
      rw [finalSweep_of_nil bookId _
        (processBatches_deletedList_nil fetchItem S A bookId (List.enumFrom 1 cs) _
          (processBatch_deletedList fetchItem S A bookId 0 _ c0))]
      dsimp only
      intro e
      constructor
      · intro he
        rcases (mem_localEtags _ bookId e).mp he with ⟨c, hc, hcb, hce⟩
        rw [← hce]
        exact hrest.1.1 c hc hcb
      · intro hk
        rcases List.mem_map.mp hk with ⟨p, hp, hpe⟩
        by_cases hL : e ∈ localEtags contacts0 bookId
        · rcases (mem_localEtags contacts0 bookId e).mp hL with ⟨c, hc0, hcb, hce⟩
          have hcfin := hrest.1.2 c hc0 hcb (by rw [hce]; exact hk)
          exact (mem_localEtags _ bookId e).mpr ⟨c, hcfin, hcb, hce⟩
        · have hneed : p.2 ∈ computeNeeded remote (localEtags contacts0 bookId) := by
            refine (mem_computeNeeded remote _ p.2).mpr ⟨p.1, ?_, ?_⟩
            · rcases p with ⟨e2, h2⟩
              exact hp
            · rw [hpe]
              exact hL
          have hpred : (fun h2 => h2 ∈ c0) p.2 ∨
              ∃ ic ∈ List.enumFrom 1 cs, p.2 ∈ ic.2 := by
            rw [← hflat] at hneed
            rcases List.mem_flatten.mp hneed with ⟨chunk, hchunk, hmem⟩
            rcases List.mem_cons.mp hchunk with rfl | hcs
            · exact Or.inl hmem
            · rcases List.mem_map.mp (by
                  rw [List.enumFrom_map_snd 1 cs]
                  exact hcs :
                  chunk ∈ (List.enumFrom 1 cs).map Prod.snd) with ⟨ic, hic, hsnd⟩
              exact Or.inr ⟨ic, hic, by rw [hsnd]; exact hmem⟩
          rcases hrest.2 p.2 hpred with ⟨c, hcfin, hcb, hcet, _⟩
          refine (mem_localEtags _ bookId e).mpr ⟨c, hcfin, hcb, ?_⟩
          rw [hcet, H.hfetch p hp, hpe]

theorem computeNeeded_eq_nil (remote : List (String × String)) (l : List String) :
    computeNeeded remote l = [] ↔ ∀ p ∈ remote, p.1 ∈ l := by
  constructor
  · exact computeNeeded_nil_sub remote l
  · intro hall
    rw [List.eq_nil_iff_forall_not_mem]
    intro h2 hmem
    rcases (mem_computeNeeded remote l h2).mp hmem with ⟨e, he, hne⟩
    exact hne (hall (e, h2) he)

theorem computeDeleted_eq_nil (remote : List (String × String)) (l : List String) :
    computeDeleted remote l = [] ↔ ∀ e ∈ l, e ∈ remote.map Prod.fst := by
  constructor
  · exact computeDeleted_nil_sub remote l
  · intro hall
    rw [List.eq_nil_iff_forall_not_mem]
    intro e hmem
    rcases (mem_computeDeleted remote l e).mp hmem with ⟨he, hk⟩
    exact hk (hall e he)

/-- C2 (amended): when the remote listing is a map (no duplicate etags),
the server returns for every listed href an item carrying the listed etag,
every listed payload is ingestible (non-empty, parseable, with at least
one non-empty email), rows fanned out from distinct listed hrefs have
disjoint derived ids, and no fanned-out id collides with a pre-existing
row of the collection whose etag is still listed — then after one full
run the set of etags on the collection's rows equals the listing's key
set, and an immediately repeated run computes empty `needed` and empty
`deleted` and performs no fetches, saves or deletions at all. -/
theorem convergence (fetchItem : String → ResponseItem) (S A bookId : String)
    (remote : List (String × String)) (contacts0 : List Contact)
    (_hkeys : (remote.map Prod.fst).Nodup)
    (H : SyncHyps fetchItem S A bookId remote contacts0) :
    (∀ e, e ∈ localEtags
        (runForAddressBook fetchItem S A bookId remote contacts0).1.contacts bookId ↔
      e ∈ remote.map Prod.fst) ∧
    computeNeeded remote (localEtags
      (runForAddressBook fetchItem S A bookId remote contacts0).1.contacts bookId) = [] ∧
    computeDeleted remote (localEtags
      (runForAddressBook fetchItem S A bookId remote contacts0).1.contacts bookId) = [] ∧
    (runForAddressBook fetchItem S A bookId remote
      (runForAddressBook fetchItem S A bookId remote contacts0).1.contacts).1.events = [] := by
  have hcore := run_converges_core fetchItem S A bookId remote contacts0 H
  have hn2 : computeNeeded remote (localEtags
      (runForAddressBook fetchItem S A bookId remote contacts0).1.contacts bookId) = [] :=
    (computeNeeded_eq_nil remote _).mpr
      (fun p hp => (hcore p.1).mpr (List.mem_map.mpr ⟨p, hp, rfl⟩))
  have hd2 : computeDeleted remote (localEtags
      (runForAddressBook fetchItem S A bookId remote contacts0).1.contacts bookId) = [] :=
    (computeDeleted_eq_nil remote _).mpr (fun e he => (hcore e).mp he)
  refine ⟨hcore, hn2, hd2, ?_⟩
  rw [runForAddressBook_eq, hn2, hd2, chunksOfVector_nil]
  rw [show (([] : List (List String)).enum) = [] from rfl]
  rw [show processBatches fetchItem S A bookId []
      { contacts := (runForAddressBook fetchItem S A bookId remote contacts0).1.contacts,
        deletedList := [], events := [] } =
      { contacts := (runForAddressBook fetchItem S A bookId remote contacts0).1.contacts,
        deletedList := [], events := [] } from rfl]
  rw [finalSweep_of_nil bookId _ rfl]

/-- C2 counterexample: an email-less (but well-formed) payload produces no
rows, so after a full successful run the local etag set misses its etag and
the second run still computes a non-empty `needed`; moreover when a fetched
payload's derived id collides with a pre-existing row holding another still
listed etag, that etag disappears from the store — the claim fails as
stated. -/
theorem convergence_counterexample :
    (("e1" : String) ∈ List.map Prod.fst [(("e1" : String), ("h1" : String))] ∧
     localEtags (runForAddressBook (fun _ => exampleItemNoEmail) ("s") ("a") ("b")
       [("e1", "h1")] []).1.contacts ("b") = [] ∧
     computeNeeded [("e1", "h1")]
       (localEtags (runForAddressBook (fun _ => exampleItemNoEmail) ("s") ("a") ("b")
         [("e1", "h1")] []).1.contacts ("b")) = ["h1"]) ∧
    (("e1" : String) ∈
       List.map Prod.fst [(("e1" : String), ("h1" : String)), ("e2", "h2")] ∧
     ("e1" : String) ∉
       localEtags (runForAddressBook (fun _ => exampleItemUidU) ("s") ("a") ("b")
         [("e1", "h1"), ("e2", "h2")] [exampleContactHidden]).1.contacts ("b")) := by
  decide

theorem convergence_witness :
    (List.map Prod.fst [(("e1" : String), ("h1" : String))]).Nodup ∧
    (runForAddressBook (fun _ => exampleItemGood) ("s") ("a") ("b") [("e1", "h1")]
      (runForAddressBook (fun _ => exampleItemGood) ("s") ("a") ("b") [("e1", "h1")]
        []).1.contacts).1.events = [] :=
  ⟨by decide,
   (convergence (fun _ => exampleItemGood) ("s") ("a") ("b") [("e1", "h1")] []
     (by decide) ⟨by decide, by decide, by decide, by decide⟩).2.2.2⟩
